import Mathlib

/-
Verification development for the marching-squares isoline/isoband engine
(src/isoband.cpp).  The C++ code is shallowly embedded: numeric grid values
become an explicit finite/non-finite sum type over the rationals, the
unordered connectivity map becomes an association list iterated in insertion
order, and the unbounded do/while loops become fuel-indexed recursions that
return none when the fuel runs out.
-/

/- Point kinds in abstract grid space, mirroring the point_type enum. -/
inductive PointType where
  | grid
  | hintersect_lo
  | hintersect_hi
  | vintersect_lo
  | vintersect_hi
deriving DecidableEq

/- A point in abstract grid space: row, column and kind (struct grid_point). -/
structure GridPoint where
  r : Int
  c : Int
  type : PointType
deriving DecidableEq

/- The default-constructed grid_point(): r = c = -1, kind grid.  Used by the
source as the "unset" sentinel value for connection slots. -/
def defaultPoint : GridPoint := ⟨-1, -1, PointType.grid⟩

instance : Inhabited GridPoint := ⟨defaultPoint⟩

/- Connection record between points in grid space (struct point_connect),
with the default constructor values. -/
structure PointConnect where
  prev : GridPoint := defaultPoint
  next : GridPoint := defaultPoint
  prev2 : GridPoint := defaultPoint
  next2 : GridPoint := defaultPoint
  altpoint : Bool := false
  collected : Bool := false
  collected2 : Bool := false
deriving DecidableEq

def emptyConnect : PointConnect := {}

instance : Inhabited PointConnect := ⟨emptyConnect⟩

/- A floating-point grid value: either a finite rational or one of the
non-finite IEEE values (NaN, +infinity, -infinity). -/
inductive FVal where
  | fin (q : ℚ)
  | nan
  | pinf
  | ninf
deriving DecidableEq

/- isfinite from math.h. -/
def FVal.isFin : FVal → Bool
  | .fin _ => true
  | _ => false

/- IEEE comparison z >= v against a finite threshold v (false on NaN). -/
def FVal.fge : FVal → ℚ → Bool
  | .fin q, v => decide (v ≤ q)
  | .nan, _ => false
  | .pinf, _ => true
  | .ninf, _ => false

/- IEEE comparison z < v against a finite threshold v (false on NaN). -/
def FVal.flt : FVal → ℚ → Bool
  | .fin q, v => decide (q < v)
  | .nan, _ => false
  | .pinf, _ => false
  | .ninf, _ => true

/- Rational view of a value; only ever used on finite values (cells with a
non-finite corner are forced to case 0 and never interpolate or take a
central value). -/
def FVal.toQ : FVal → ℚ
  | .fin q => q
  | _ => 0

/- The input data of one engine instance: dimensions, the x/y coordinate
arrays and the flat column-major z array (element (r, c) at offset
r + c * nrow, exactly as grid_z_p is indexed in the source). -/
structure Grid where
  nrow : Int
  ncol : Int
  x : Int → ℚ
  y : Int → ℚ
  z : Int → FVal

/- grid_z_p[r + c * nrow]. -/
def Grid.zAt (g : Grid) (r c : Int) : FVal := g.z (r + c * g.nrow)

/- One entry of the ternarized vector:
(z >= vlo && z < vhi) + 2 * (z >= vhi). -/
def ternarize (z : FVal) (vlo vhi : ℚ) : ℕ :=
  (z.fge vlo && z.flt vhi).toNat + 2 * (z.fge vhi).toNat

/- One entry of the binarized vector: (z >= v). -/
def binarize (z : FVal) (v : ℚ) : ℕ := (z.fge v).toNat

/- The finiteness test guarding each cell: all four corners finite. -/
def cornersFinite (g : Grid) (r c : Int) : Bool :=
  (g.zAt r c).isFin && (g.zAt r (c+1)).isFin &&
  (g.zAt (r+1) c).isFin && (g.zAt (r+1) (c+1)).isFin

/- The isoband cell index: 0 if some corner is non-finite, otherwise
27*t(TL) + 9*t(TR) + 3*t(BR) + t(BL) over the ternarized corners. -/
def bandCellIndex (g : Grid) (vlo vhi : ℚ) (r c : Int) : ℕ :=
  if !cornersFinite g r c then 0
  else
    27 * ternarize (g.zAt r c) vlo vhi +
    9 * ternarize (g.zAt r (c+1)) vlo vhi +
    3 * ternarize (g.zAt (r+1) (c+1)) vlo vhi +
    ternarize (g.zAt (r+1) c) vlo vhi

/- central_value(r, c): the mean of the four corners of a cell (taken on the
rational view; every call site is guarded by a nonzero cell index, which
requires all four corners to be finite). -/
def centralValue (g : Grid) (r c : Int) : ℚ :=
  ((g.zAt r c).toQ + (g.zAt r (c+1)).toQ +
   (g.zAt (r+1) c).toQ + (g.zAt (r+1) (c+1)).toQ) / 4

/- The isoline cell index before saddle disambiguation: 0 if some corner is
non-finite, otherwise 8*b(TL) + 4*b(TR) + 2*b(BR) + b(BL). -/
def lineCellIndexRaw (g : Grid) (v : ℚ) (r c : Int) : ℕ :=
  if !cornersFinite g r c then 0
  else
    8 * binarize (g.zAt r c) v +
    4 * binarize (g.zAt r (c+1)) v +
    2 * binarize (g.zAt (r+1) (c+1)) v +
    binarize (g.zAt (r+1) c) v

/- The isoline cell index after the saddle rule: cases 5 and 10 are swapped
when the central value lies below the threshold. -/
def lineCellIndex (g : Grid) (v : ℚ) (r c : Int) : ℕ :=
  let idx := lineCellIndexRaw g v r c
  if idx = 5 ∧ centralValue g r c < v then 10
  else if idx = 10 ∧ centralValue g r c < v then 5
  else idx

/- The connectivity map (unordered_map polygon_grid), embedded as an
association list with unique keys, iterated in insertion order. -/
structure GMap where
  entries : List (GridPoint × PointConnect)
deriving DecidableEq

def GMap.empty : GMap := ⟨[]⟩

def lookupEntry (p : GridPoint) : List (GridPoint × PointConnect) → Option PointConnect
  | [] => none
  | (q, w) :: rest => if q = p then some w else lookupEntry p rest

def GMap.find? (m : GMap) (p : GridPoint) : Option PointConnect :=
  lookupEntry p m.entries

/- Read access polygon_grid[p]: a missing key reads as the default record.
(The C++ operator[] also inserts the default; in this development every
observable read is either at a key already present or of a record whose
fields are the defaults, so the value read is the same.) -/
def GMap.get (m : GMap) (p : GridPoint) : PointConnect :=
  (m.find? p).getD emptyConnect

def GMap.contains (m : GMap) (p : GridPoint) : Bool :=
  (m.find? p).isSome

def setEntry (p : GridPoint) (v : PointConnect) :
    List (GridPoint × PointConnect) → List (GridPoint × PointConnect)
  | [] => [(p, v)]
  | (q, w) :: rest => if q = p then (q, v) :: rest else (q, w) :: setEntry p v rest

/- Write access polygon_grid[p] = v: overwrite if present, append if new. -/
def GMap.set (m : GMap) (p : GridPoint) (v : PointConnect) : GMap :=
  ⟨setEntry p v m.entries⟩

/- polygon_grid.erase(p). -/
def GMap.erase (m : GMap) (p : GridPoint) : GMap :=
  ⟨m.entries.filter (fun kv => kv.1 ≠ p)⟩

def GMap.keys (m : GMap) : List GridPoint := m.entries.map Prod.fst

/-
Polygon stitching (isobander::poly_merge).  Phase 1 scores each vertex of the
elementary polygon against the existing map; phase 2 commits the staged
records (or deletes fully cancelled vertices) in order.
-/

/- The 2-bit score of the branch without an alternative point:
2 * (tentative next == existing prev) + (tentative prev == existing next). -/
def noAltScore (t e : PointConnect) : ℕ :=
  2 * (t.next = e.prev : Bool).toNat + (t.prev = e.next : Bool).toNat

/- The branch of poly_merge for a point already present without an
alternative point.  none means the point is marked for deletion. -/
def mergeNoAlt (t e : PointConnect) : Option PointConnect :=
  match noAltScore t e with
  | 3 => none
  | 2 => some { t with next := e.next }
  | 1 => some { t with prev := e.prev }
  | _ => some { t with prev2 := e.prev, next2 := e.next, altpoint := true }

/- The 4-bit score of the branch with an alternative point:
8 * (tentative next == existing prev2) + 4 * (tentative prev == existing next2)
+ 2 * (tentative next == existing prev) + (tentative prev == existing next). -/
def altScore (t e : PointConnect) : ℕ :=
  8 * (t.next = e.prev2 : Bool).toNat + 4 * (t.prev = e.next2 : Bool).toNat +
  2 * (t.next = e.prev : Bool).toNat + (t.prev = e.next : Bool).toNat

/- The branch of poly_merge for a point already present with an alternative
point; unhandled scores raise the "undefined merging configuration" error. -/
def mergeWithAlt (t e : PointConnect) : Except Unit PointConnect :=
  match altScore t e with
  | 9 => Except.ok { t with next := e.next2, prev := e.prev }
  | 6 => Except.ok { t with next := e.next, prev := e.prev2 }
  | 8 => Except.ok { t with next2 := e.next2, prev2 := t.prev,
                            prev := e.prev, next := e.next, altpoint := true }
  | 4 => Except.ok { t with prev2 := e.prev2, next2 := t.next,
                            prev := e.prev, next := e.next, altpoint := true }
  | 2 => Except.ok { t with next := e.next,
                            prev2 := e.prev2, next2 := e.next2, altpoint := true }
  | 1 => Except.ok { t with prev := e.prev,
                            prev2 := e.prev2, next2 := e.next2, altpoint := true }
  | _ => Except.error ()

/- The tentative connection record for vertex i of the elementary polygon:
next is the cyclic successor, prev the cyclic predecessor, altpoint false
(the remaining fields carry the default values; the source leaves stale
values there, but they are only ever read when altpoint is set, and every
branch that sets altpoint also writes them). -/
def tentativeConnect (poly : List GridPoint) (i : ℕ) : PointConnect :=
  { next := poly.getD (if i + 1 < poly.length then i + 1 else 0) defaultPoint,
    prev := poly.getD (if i = 0 then poly.length - 1 else i - 1) defaultPoint,
    altpoint := false }

/- Phase 1 of poly_merge for one vertex: the staged record, or none when the
vertex cancels and is to be deleted. -/
def polyMergeStep (m : GMap) (p : GridPoint) (t : PointConnect) :
    Except Unit (Option PointConnect) :=
  if m.contains p then
    let e := m.get p
    if !e.altpoint then Except.ok (mergeNoAlt t e)
    else (mergeWithAlt t e).map some
  else Except.ok (some t)

def polyMergePhase1 (m : GMap) (poly : List GridPoint) :
    Except Unit (List (Option PointConnect)) :=
  (List.range poly.length).mapM
    (fun i => polyMergeStep m (poly.getD i defaultPoint) (tentativeConnect poly i))

/- Phase 2 of poly_merge: commit the staged records in order; a none entry
deletes its key. -/
def polyMergeCommit (m : GMap) : List (GridPoint × Option PointConnect) → GMap
  | [] => m
  | (p, none) :: rest => polyMergeCommit (m.erase p) rest
  | (p, some t) :: rest => polyMergeCommit (m.set p t) rest

def polyMerge (m : GMap) (poly : List GridPoint) : Except Unit GMap :=
  match polyMergePhase1 m poly with
  | Except.error e => Except.error e
  | Except.ok staged => Except.ok (polyMergeCommit m (poly.zip staged))

/-
Coordinate computation (interpolate and calc_point_coords).
-/

/- interpolate(x0, x1, z0, z1, value): x0 + d * (x1 - x0) with
d = (value - z0) / (z1 - z0). -/
def interpol (x0 x1 z0 z1 v : ℚ) : ℚ := x0 + (v - z0) / (z1 - z0) * (x1 - x0)

/- calc_point_coords: output x/y coordinates of a grid point. -/
def calcPointCoords (g : Grid) (vlo vhi : ℚ) (p : GridPoint) : ℚ × ℚ :=
  match p.type with
  | PointType.grid => (g.x p.c, g.y p.r)
  | PointType.hintersect_lo =>
      (interpol (g.x p.c) (g.x (p.c+1)) (g.zAt p.r p.c).toQ (g.zAt p.r (p.c+1)).toQ vlo,
       g.y p.r)
  | PointType.hintersect_hi =>
      (interpol (g.x p.c) (g.x (p.c+1)) (g.zAt p.r p.c).toQ (g.zAt p.r (p.c+1)).toQ vhi,
       g.y p.r)
  | PointType.vintersect_lo =>
      (g.x p.c,
       interpol (g.y p.r) (g.y (p.r+1)) (g.zAt p.r p.c).toQ (g.zAt (p.r+1) p.c).toQ vlo)
  | PointType.vintersect_hi =>
      (g.x p.c,
       interpol (g.y p.r) (g.y (p.r+1)) (g.zAt p.r p.c).toQ (g.zAt (p.r+1) p.c).toQ vhi)

/- Shorthand constructor for grid points. -/
def gp (r c : Int) (t : PointType) : GridPoint := ⟨r, c, t⟩

/-
The isoband case table: for cell (r, c) with the given case index, the list
of elementary polygons emitted (each polygon is the poly_start/poly_add
sequence of one poly_merge call, in source order).  Saddle cases branch on
the central value exactly as the source does.
-/
def bandCellEmit (g : Grid) (vlo vhi : ℚ) (r c : Int) : List (List GridPoint) :=
  match bandCellIndex g vlo vhi r c with
  | 0 => []
  | 80 => []
  | 1 => [[gp r c .vintersect_lo, gp (r+1) c .hintersect_lo, gp (r+1) c .grid]]
  | 3 => [[gp r (c+1) .vintersect_lo, gp (r+1) (c+1) .grid, gp (r+1) c .hintersect_lo]]
  | 9 => [[gp r c .hintersect_lo, gp r (c+1) .grid, gp r (c+1) .vintersect_lo]]
  | 27 => [[gp r c .vintersect_lo, gp r c .grid, gp r c .hintersect_lo]]
  | 79 => [[gp r c .vintersect_hi, gp (r+1) c .hintersect_hi, gp (r+1) c .grid]]
  | 77 => [[gp r (c+1) .vintersect_hi, gp (r+1) (c+1) .grid, gp (r+1) c .hintersect_hi]]
  | 71 => [[gp r c .hintersect_hi, gp r (c+1) .grid, gp r (c+1) .vintersect_hi]]
  | 53 => [[gp r c .vintersect_hi, gp r c .grid, gp r c .hintersect_hi]]
  | 78 => [[gp r c .vintersect_hi, gp (r+1) c .hintersect_hi,
            gp (r+1) c .hintersect_lo, gp r c .vintersect_lo]]
  | 74 => [[gp (r+1) c .hintersect_hi, gp r (c+1) .vintersect_hi,
            gp r (c+1) .vintersect_lo, gp (r+1) c .hintersect_lo]]
  | 62 => [[gp r (c+1) .vintersect_hi, gp r c .hintersect_hi,
            gp r c .hintersect_lo, gp r (c+1) .vintersect_lo]]
  | 26 => [[gp r c .hintersect_hi, gp r c .vintersect_hi,
            gp r c .vintersect_lo, gp r c .hintersect_lo]]
  | 2 => [[gp r c .vintersect_lo, gp (r+1) c .hintersect_lo,
           gp (r+1) c .hintersect_hi, gp r c .vintersect_hi]]
  | 6 => [[gp (r+1) c .hintersect_lo, gp r (c+1) .vintersect_lo,
           gp r (c+1) .vintersect_hi, gp (r+1) c .hintersect_hi]]
  | 18 => [[gp r (c+1) .vintersect_lo, gp r c .hintersect_lo,
            gp r c .hintersect_hi, gp r (c+1) .vintersect_hi]]
  | 54 => [[gp r c .hintersect_lo, gp r c .vintersect_lo,
            gp r c .vintersect_hi, gp r c .hintersect_hi]]
  | 4 => [[gp r c .vintersect_lo, gp r (c+1) .vintersect_lo,
           gp (r+1) (c+1) .grid, gp (r+1) c .grid]]
  | 12 => [[gp r c .hintersect_lo, gp r (c+1) .grid,
            gp (r+1) (c+1) .grid, gp (r+1) c .hintersect_lo]]
  | 36 => [[gp r c .grid, gp r (c+1) .grid,
            gp r (c+1) .vintersect_lo, gp r c .vintersect_lo]]
  | 28 => [[gp r c .hintersect_lo, gp (r+1) c .hintersect_lo,
            gp (r+1) c .grid, gp r c .grid]]
  | 76 => [[gp r c .vintersect_hi, gp r (c+1) .vintersect_hi,
            gp (r+1) (c+1) .grid, gp (r+1) c .grid]]
  | 68 => [[gp r c .hintersect_hi, gp r (c+1) .grid,
            gp (r+1) (c+1) .grid, gp (r+1) c .hintersect_hi]]
  | 44 => [[gp r c .grid, gp r (c+1) .grid,
            gp r (c+1) .vintersect_hi, gp r c .vintersect_hi]]
  | 52 => [[gp r c .hintersect_hi, gp (r+1) c .hintersect_hi,
            gp (r+1) c .grid, gp r c .grid]]
  | 72 => [[gp r c .vintersect_hi, gp r (c+1) .vintersect_hi,
            gp r (c+1) .vintersect_lo, gp r c .vintersect_lo]]
  | 56 => [[gp r c .hintersect_hi, gp r c .hintersect_lo,
            gp (r+1) c .hintersect_lo, gp (r+1) c .hintersect_hi]]
  | 8 => [[gp r c .vintersect_lo, gp r (c+1) .vintersect_lo,
           gp r (c+1) .vintersect_hi, gp r c .vintersect_hi]]
  | 24 => [[gp r c .hintersect_lo, gp r c .hintersect_hi,
            gp (r+1) c .hintersect_hi, gp (r+1) c .hintersect_lo]]
  | 40 => [[gp r c .grid, gp r (c+1) .grid,
            gp (r+1) (c+1) .grid, gp (r+1) c .grid]]
  | 49 => [[gp r c .grid, gp r c .hintersect_hi, gp r (c+1) .vintersect_hi,
            gp (r+1) (c+1) .grid, gp (r+1) c .grid]]
  | 67 => [[gp (r+1) c .grid, gp r c .vintersect_hi, gp r c .hintersect_hi,
            gp r (c+1) .grid, gp (r+1) (c+1) .grid]]
  | 41 => [[gp r c .grid, gp r (c+1) .grid, gp (r+1) (c+1) .grid,
            gp (r+1) c .hintersect_hi, gp r c .vintersect_hi]]
  | 43 => [[gp r c .grid, gp r (c+1) .grid, gp r (c+1) .vintersect_hi,
            gp (r+1) c .hintersect_hi, gp (r+1) c .grid]]
  | 31 => [[gp r c .grid, gp r c .hintersect_lo, gp r (c+1) .vintersect_lo,
            gp (r+1) (c+1) .grid, gp (r+1) c .grid]]
  | 13 => [[gp (r+1) c .grid, gp r c .vintersect_lo, gp r c .hintersect_lo,
            gp r (c+1) .grid, gp (r+1) (c+1) .grid]]
  | 39 => [[gp r c .grid, gp r (c+1) .grid, gp (r+1) (c+1) .grid,
            gp (r+1) c .hintersect_lo, gp r c .vintersect_lo]]
  | 37 => [[gp r c .grid, gp r (c+1) .grid, gp r (c+1) .vintersect_lo,
            gp (r+1) c .hintersect_lo, gp (r+1) c .grid]]
  | 45 => [[gp r c .grid, gp r c .hintersect_hi, gp r (c+1) .vintersect_hi,
            gp r (c+1) .vintersect_lo, gp r c .vintersect_lo]]
  | 15 => [[gp r (c+1) .grid, gp r (c+1) .vintersect_hi, gp (r+1) c .hintersect_hi,
            gp (r+1) c .hintersect_lo, gp r c .hintersect_lo]]
  | 5 => [[gp r c .vintersect_lo, gp r (c+1) .vintersect_lo, gp (r+1) (c+1) .grid,
           gp (r+1) c .hintersect_hi, gp r c .vintersect_hi]]
  | 55 => [[gp (r+1) c .grid, gp r c .vintersect_hi, gp r c .hintersect_hi,
            gp r c .hintersect_lo, gp (r+1) c .hintersect_lo]]
  | 35 => [[gp r c .grid, gp r c .hintersect_lo, gp r (c+1) .vintersect_lo,
            gp r (c+1) .vintersect_hi, gp r c .vintersect_hi]]
  | 65 => [[gp r (c+1) .grid, gp r (c+1) .vintersect_lo, gp (r+1) c .hintersect_lo,
            gp (r+1) c .hintersect_hi, gp r c .hintersect_hi]]
  | 75 => [[gp r c .vintersect_hi, gp r (c+1) .vintersect_hi, gp (r+1) (c+1) .grid,
            gp (r+1) c .hintersect_lo, gp r c .vintersect_lo]]
  | 25 => [[gp (r+1) c .grid, gp r c .vintersect_lo, gp r c .hintersect_lo,
            gp r c .hintersect_hi, gp (r+1) c .hintersect_hi]]
  | 29 => [[gp r c .grid, gp r c .hintersect_lo, gp (r+1) c .hintersect_lo,
            gp (r+1) c .hintersect_hi, gp r c .vintersect_hi]]
  | 63 => [[gp r (c+1) .grid, gp r (c+1) .vintersect_lo, gp r c .vintersect_lo,
            gp r c .vintersect_hi, gp r c .hintersect_hi]]
  | 21 => [[gp (r+1) (c+1) .grid, gp (r+1) c .hintersect_lo, gp r c .hintersect_lo,
            gp r c .hintersect_hi, gp r (c+1) .vintersect_hi]]
  | 7 => [[gp (r+1) c .grid, gp r c .vintersect_lo, gp r (c+1) .vintersect_lo,
           gp r (c+1) .vintersect_hi, gp (r+1) c .hintersect_hi]]
  | 51 => [[gp r c .grid, gp r c .hintersect_hi, gp (r+1) c .hintersect_hi,
            gp (r+1) c .hintersect_lo, gp r c .vintersect_lo]]
  | 17 => [[gp r (c+1) .grid, gp r (c+1) .vintersect_hi, gp r c .vintersect_hi,
            gp r c .vintersect_lo, gp r c .hintersect_lo]]
  | 59 => [[gp (r+1) (c+1) .grid, gp (r+1) c .hintersect_hi, gp r c .hintersect_hi,
            gp r c .hintersect_lo, gp r (c+1) .vintersect_lo]]
  | 73 => [[gp (r+1) c .grid, gp r c .vintersect_hi, gp r (c+1) .vintersect_hi,
            gp r (c+1) .vintersect_lo, gp (r+1) c .hintersect_lo]]
  | 22 => [[gp (r+1) c .grid, gp r c .vintersect_lo, gp r c .hintersect_lo,
            gp r c .hintersect_hi, gp r (c+1) .vintersect_hi, gp (r+1) (c+1) .grid]]
  | 66 => [[gp r (c+1) .grid, gp (r+1) (c+1) .grid, gp (r+1) c .hintersect_lo,
            gp r c .vintersect_lo, gp r c .vintersect_hi, gp r c .hintersect_hi]]
  | 38 => [[gp r c .grid, gp r (c+1) .grid, gp r (c+1) .vintersect_lo,
            gp (r+1) c .hintersect_lo, gp (r+1) c .hintersect_hi, gp r c .vintersect_hi]]
  | 34 => [[gp r c .grid, gp r c .hintersect_lo, gp r (c+1) .vintersect_lo,
            gp r (c+1) .vintersect_hi, gp (r+1) c .hintersect_hi, gp (r+1) c .grid]]
  | 58 => [[gp (r+1) c .grid, gp r c .vintersect_hi, gp r c .hintersect_hi,
            gp r c .hintersect_lo, gp r (c+1) .vintersect_lo, gp (r+1) (c+1) .grid]]
  | 14 => [[gp r (c+1) .grid, gp (r+1) (c+1) .grid, gp (r+1) c .hintersect_hi,
            gp r c .vintersect_hi, gp r c .vintersect_lo, gp r c .hintersect_lo]]
  | 42 => [[gp r c .grid, gp r (c+1) .grid, gp r (c+1) .vintersect_hi,
            gp (r+1) c .hintersect_hi, gp (r+1) c .hintersect_lo, gp r c .vintersect_lo]]
  | 46 => [[gp r c .grid, gp r c .hintersect_hi, gp r (c+1) .vintersect_hi,
            gp r (c+1) .vintersect_lo, gp (r+1) c .hintersect_lo, gp (r+1) c .grid]]
  | 64 => [[gp (r+1) c .grid, gp r c .vintersect_hi, gp r c .hintersect_hi,
            gp r (c+1) .grid, gp r (c+1) .vintersect_lo, gp (r+1) c .hintersect_lo]]
  | 16 => [[gp r (c+1) .grid, gp r (c+1) .vintersect_hi, gp (r+1) c .hintersect_hi,
            gp (r+1) c .grid, gp r c .vintersect_lo, gp r c .hintersect_lo]]
  | 32 => [[gp r c .grid, gp r c .hintersect_lo, gp r (c+1) .vintersect_lo,
            gp (r+1) (c+1) .grid, gp (r+1) c .hintersect_hi, gp r c .vintersect_hi]]
  | 48 => [[gp r c .grid, gp r c .hintersect_hi, gp r (c+1) .vintersect_hi,
            gp (r+1) (c+1) .grid, gp (r+1) c .hintersect_lo, gp r c .vintersect_lo]]
  | 10 =>
      if centralValue g r c < vlo then
        [[gp (r+1) c .grid, gp r c .vintersect_lo, gp (r+1) c .hintersect_lo],
         [gp r (c+1) .grid, gp r (c+1) .vintersect_lo, gp r c .hintersect_lo]]
      else
        [[gp (r+1) c .grid, gp r c .vintersect_lo, gp r c .hintersect_lo,
          gp r (c+1) .grid, gp r (c+1) .vintersect_lo, gp (r+1) c .hintersect_lo]]
  | 30 =>
      if centralValue g r c < vlo then
        [[gp r c .grid, gp r c .hintersect_lo, gp r c .vintersect_lo],
         [gp (r+1) (c+1) .grid, gp (r+1) c .hintersect_lo, gp r (c+1) .vintersect_lo]]
      else
        [[gp r c .grid, gp r c .hintersect_lo, gp r (c+1) .vintersect_lo,
          gp (r+1) (c+1) .grid, gp (r+1) c .hintersect_lo, gp r c .vintersect_lo]]
  | 70 =>
      if centralValue g r c ≥ vhi then
        [[gp (r+1) c .grid, gp r c .vintersect_hi, gp (r+1) c .hintersect_hi],
         [gp r (c+1) .grid, gp r (c+1) .vintersect_hi, gp r c .hintersect_hi]]
      else
        [[gp (r+1) c .grid, gp r c .vintersect_hi, gp r c .hintersect_hi,
          gp r (c+1) .grid, gp r (c+1) .vintersect_hi, gp (r+1) c .hintersect_hi]]
  | 50 =>
      if centralValue g r c ≥ vhi then
        [[gp r c .grid, gp r c .hintersect_hi, gp r c .vintersect_hi],
         [gp (r+1) (c+1) .grid, gp (r+1) c .hintersect_hi, gp r (c+1) .vintersect_hi]]
      else
        [[gp r c .grid, gp r c .hintersect_hi, gp r (c+1) .vintersect_hi,
          gp (r+1) (c+1) .grid, gp (r+1) c .hintersect_hi, gp r c .vintersect_hi]]
  | 69 =>
      if centralValue g r c ≥ vhi then
        [[gp r (c+1) .grid, gp r (c+1) .vintersect_hi, gp r c .hintersect_hi],
         [gp r c .vintersect_hi, gp (r+1) c .hintersect_hi,
          gp (r+1) c .hintersect_lo, gp r c .vintersect_lo]]
      else
        [[gp r (c+1) .grid, gp r (c+1) .vintersect_hi, gp (r+1) c .hintersect_hi,
          gp (r+1) c .hintersect_lo, gp r c .vintersect_lo,
          gp r c .vintersect_hi, gp r c .hintersect_hi]]
  | 61 =>
      if centralValue g r c ≥ vhi then
        [[gp (r+1) c .grid, gp r c .vintersect_hi, gp (r+1) c .hintersect_hi],
         [gp r (c+1) .vintersect_hi, gp r c .hintersect_hi,
          gp r c .hintersect_lo, gp r (c+1) .vintersect_lo]]
      else
        [[gp (r+1) c .grid, gp r c .vintersect_hi, gp r c .hintersect_hi,
          gp r c .hintersect_lo, gp r (c+1) .vintersect_lo,
          gp r (c+1) .vintersect_hi, gp (r+1) c .hintersect_hi]]
  | 47 =>
      if centralValue g r c ≥ vhi then
        [[gp r c .grid, gp r c .hintersect_hi, gp r c .vintersect_hi],
         [gp (r+1) c .hintersect_hi, gp r (c+1) .vintersect_hi,
          gp r (c+1) .vintersect_lo, gp (r+1) c .hintersect_lo]]
      else
        [[gp r c .grid, gp r c .hintersect_hi, gp r (c+1) .vintersect_hi,
          gp r (c+1) .vintersect_lo, gp (r+1) c .hintersect_lo,
          gp (r+1) c .hintersect_hi, gp r c .vintersect_hi]]
  | 23 =>
      if centralValue g r c ≥ vhi then
        [[gp (r+1) (c+1) .grid, gp (r+1) c .hintersect_hi, gp r (c+1) .vintersect_hi],
         [gp r c .hintersect_hi, gp r c .vintersect_hi,
          gp r c .vintersect_lo, gp r c .hintersect_lo]]
      else
        [[gp (r+1) (c+1) .grid, gp (r+1) c .hintersect_hi, gp r c .vintersect_hi,
          gp r c .vintersect_lo, gp r c .hintersect_lo,
          gp r c .hintersect_hi, gp r (c+1) .vintersect_hi]]
  | 11 =>
      if centralValue g r c < vlo then
        [[gp r (c+1) .grid, gp r (c+1) .vintersect_lo, gp r c .hintersect_lo],
         [gp r c .vintersect_lo, gp (r+1) c .hintersect_lo,
          gp (r+1) c .hintersect_hi, gp r c .vintersect_hi]]
      else
        [[gp r (c+1) .grid, gp r (c+1) .vintersect_lo, gp (r+1) c .hintersect_lo,
          gp (r+1) c .hintersect_hi, gp r c .vintersect_hi,
          gp r c .vintersect_lo, gp r c .hintersect_lo]]
  | 19 =>
      if centralValue g r c < vlo then
        [[gp (r+1) c .grid, gp r c .vintersect_lo, gp (r+1) c .hintersect_lo],
         [gp r (c+1) .vintersect_lo, gp r c .hintersect_lo,
          gp r c .hintersect_hi, gp r (c+1) .vintersect_hi]]
      else
        [[gp (r+1) c .grid, gp r c .vintersect_lo, gp r c .hintersect_lo,
          gp r c .hintersect_hi, gp r (c+1) .vintersect_hi,
          gp r (c+1) .vintersect_lo, gp (r+1) c .hintersect_lo]]
  | 33 =>
      if centralValue g r c < vlo then
        [[gp r c .grid, gp r c .hintersect_lo, gp r c .vintersect_lo],
         [gp (r+1) c .hintersect_lo, gp r (c+1) .vintersect_lo,
          gp r (c+1) .vintersect_hi, gp (r+1) c .hintersect_hi]]
      else
        [[gp r c .grid, gp r c .hintersect_lo, gp r (c+1) .vintersect_lo,
          gp r (c+1) .vintersect_hi, gp (r+1) c .hintersect_hi,
          gp (r+1) c .hintersect_lo, gp r c .vintersect_lo]]
  | 57 =>
      if centralValue g r c < vlo then
        [[gp (r+1) (c+1) .grid, gp (r+1) c .hintersect_lo, gp r (c+1) .vintersect_lo],
         [gp r c .hintersect_lo, gp r c .vintersect_lo,
          gp r c .vintersect_hi, gp r c .hintersect_hi]]
      else
        [[gp (r+1) (c+1) .grid, gp (r+1) c .hintersect_lo, gp r c .vintersect_lo,
          gp r c .vintersect_hi, gp r c .hintersect_hi,
          gp r c .hintersect_lo, gp r (c+1) .vintersect_lo]]
  | 60 =>
      if centralValue g r c < vlo then
        [[gp r c .vintersect_hi, gp r c .hintersect_hi,
          gp r c .hintersect_lo, gp r c .vintersect_lo],
         [gp r (c+1) .vintersect_hi, gp (r+1) c .hintersect_hi,
          gp (r+1) c .hintersect_lo, gp r (c+1) .vintersect_lo]]
      else if centralValue g r c ≥ vhi then
        [[gp r c .vintersect_hi, gp (r+1) c .hintersect_hi,
          gp (r+1) c .hintersect_lo, gp r c .vintersect_lo],
         [gp r (c+1) .vintersect_hi, gp r c .hintersect_hi,
          gp r c .hintersect_lo, gp r (c+1) .vintersect_lo]]
      else
        [[gp r c .vintersect_hi, gp r c .hintersect_hi,
          gp r c .hintersect_lo, gp r (c+1) .vintersect_lo,
          gp r (c+1) .vintersect_hi, gp (r+1) c .hintersect_hi,
          gp (r+1) c .hintersect_lo, gp r c .vintersect_lo]]
  | 20 =>
      if centralValue g r c < vlo then
        [[gp r c .vintersect_lo, gp (r+1) c .hintersect_lo,
          gp (r+1) c .hintersect_hi, gp r c .vintersect_hi],
         [gp r (c+1) .vintersect_lo, gp r c .hintersect_lo,
          gp r c .hintersect_hi, gp r (c+1) .vintersect_hi]]
      else if centralValue g r c ≥ vhi then
        [[gp r c .vintersect_lo, gp r c .hintersect_lo,
          gp r c .hintersect_hi, gp r c .vintersect_hi],
         [gp r (c+1) .vintersect_lo, gp (r+1) c .hintersect_lo,
          gp (r+1) c .hintersect_hi, gp r (c+1) .vintersect_hi]]
      else
        [[gp r c .vintersect_lo, gp r c .hintersect_lo,
          gp r c .hintersect_hi, gp r (c+1) .vintersect_hi,
          gp r (c+1) .vintersect_lo, gp (r+1) c .hintersect_lo,
          gp (r+1) c .hintersect_hi, gp r c .vintersect_hi]]
  | _ => []

/- isobander::calculate_contour: iterate cells row-major (r outer, c inner)
and merge every emitted elementary polygon in order. -/
def polyMergeAll (m : GMap) : List (List GridPoint) → Except Unit GMap
  | [] => Except.ok m
  | poly :: rest =>
    match polyMerge m poly with
    | Except.error e => Except.error e
    | Except.ok m2 => polyMergeAll m2 rest

/- The cells of the grid in iteration order: r outer loop, c inner loop. -/
def cellList (g : Grid) : List (Int × Int) :=
  ((List.range (g.nrow - 1).toNat).map Int.ofNat).flatMap
    (fun r => ((List.range (g.ncol - 1).toNat).map Int.ofNat).map (fun c => (r, c)))

def bandCalcGo (g : Grid) (vlo vhi : ℚ) (m : GMap) :
    List (Int × Int) → Except Unit GMap
  | [] => Except.ok m
  | (r, c) :: rest =>
    match polyMergeAll m (bandCellEmit g vlo vhi r c) with
    | Except.error e => Except.error e
    | Except.ok m2 => bandCalcGo g vlo vhi m2 rest

def bandCalculate (g : Grid) (vlo vhi : ℚ) : Except Unit GMap :=
  bandCalcGo g vlo vhi GMap.empty (cellList g)

/-
isobander::collect.  The walk follows next (or next2) links from the start
vertex, marking slots as collected, and stops when it returns to the start;
the start vertex is emitted at the head of the walk and not emitted again.
The do/while loop is given fuel; none models non-termination.
-/
def bandWalk (m : GMap) (cur prev start : GridPoint) :
    ℕ → Option (List GridPoint × GMap)
  | 0 => none
  | fuel + 1 =>
    if (m.get cur).altpoint && (m.get cur).prev2 = prev then
      if (m.get cur).next2 = start then
        some ([cur], m.set cur { m.get cur with collected2 := true })
      else
        match bandWalk (m.set cur { m.get cur with collected2 := true })
            (m.get cur).next2 cur start fuel with
        | none => none
        | some (pts, m3) => some (cur :: pts, m3)
    else
      if (m.get cur).next = start then
        some ([cur], m.set cur { m.get cur with collected := true })
      else
        match bandWalk (m.set cur { m.get cur with collected := true })
            (m.get cur).next cur start fuel with
        | none => none
        | some (pts, m3) => some (cur :: pts, m3)

/- The per-key skip test of isobander::collect. -/
def bandSkip (e : PointConnect) : Bool :=
  (e.collected && !e.altpoint) || (e.collected && e.collected2 && e.altpoint)

/- Iterate the keys of the connectivity map in order; each key that is not
yet fully collected starts a new path with the next id. -/
def bandCollectAux (m : GMap) (fuel : ℕ) :
    List GridPoint → ℕ → Option (List (ℕ × List GridPoint) × GMap)
  | [], _ => some ([], m)
  | k :: ks, n =>
    if bandSkip (m.get k) then bandCollectAux m fuel ks n
    else
      match bandWalk m k
          (if (m.get k).altpoint && !(m.get k).collected2 then (m.get k).prev2
           else (m.get k).prev) k fuel with
      | none => none
      | some (pts, m2) =>
        match bandCollectAux m2 fuel ks (n + 1) with
        | none => none
        | some (paths, m3) => some ((n + 1, pts) :: paths, m3)

def bandCollect (m : GMap) (fuel : ℕ) : Option (List (ℕ × List GridPoint)) :=
  match bandCollectAux m fuel m.keys 0 with
  | none => none
  | some (paths, _) => some paths

/- The whole isobander pipeline at grid-point level: id-tagged paths. -/
def bandRun (g : Grid) (vlo vhi : ℚ) (fuel : ℕ) :
    Option (List (ℕ × List GridPoint)) :=
  match bandCalculate g vlo vhi with
  | Except.error _ => none
  | Except.ok m => bandCollect m fuel

/- The flat id column of a collected result. -/
def flatIds (paths : List (ℕ × List GridPoint)) : List ℕ :=
  paths.flatMap (fun ip => ip.2.map (fun _ => ip.1))

/- The flat (x, y) columns of a collected result. -/
def flatCoords (g : Grid) (vlo vhi : ℚ) (paths : List (ℕ × List GridPoint)) :
    List (ℚ × ℚ) :=
  paths.flatMap (fun ip => ip.2.map (calcPointCoords g vlo vhi))

/- resultStruct.len: number of emitted points. -/
def resultLen (paths : List (ℕ × List GridPoint)) : ℕ :=
  (flatIds paths).length

/-
The isoliner.  Elementary primitives are two-point segments; the case table
below lists the line_start/line_add pairs per cell case (after the saddle
rewrite), exactly as in isoliner::calculate_contour.
-/
def lineCellEmit (g : Grid) (v : ℚ) (r c : Int) : List (GridPoint × GridPoint) :=
  match lineCellIndex g v r c with
  | 1 => [(gp r c .vintersect_lo, gp (r+1) c .hintersect_lo)]
  | 2 => [(gp r (c+1) .vintersect_lo, gp (r+1) c .hintersect_lo)]
  | 3 => [(gp r c .vintersect_lo, gp r (c+1) .vintersect_lo)]
  | 4 => [(gp r c .hintersect_lo, gp r (c+1) .vintersect_lo)]
  | 5 => [(gp r (c+1) .vintersect_lo, gp (r+1) c .hintersect_lo),
          (gp r c .hintersect_lo, gp r c .vintersect_lo)]
  | 6 => [(gp r c .hintersect_lo, gp (r+1) c .hintersect_lo)]
  | 7 => [(gp r c .hintersect_lo, gp r c .vintersect_lo)]
  | 8 => [(gp r c .hintersect_lo, gp r c .vintersect_lo)]
  | 9 => [(gp r c .hintersect_lo, gp (r+1) c .hintersect_lo)]
  | 10 => [(gp r c .vintersect_lo, gp (r+1) c .hintersect_lo),
           (gp r c .hintersect_lo, gp r (c+1) .vintersect_lo)]
  | 11 => [(gp r c .hintersect_lo, gp r (c+1) .vintersect_lo)]
  | 12 => [(gp r c .vintersect_lo, gp r (c+1) .vintersect_lo)]
  | 13 => [(gp r (c+1) .vintersect_lo, gp (r+1) c .hintersect_lo)]
  | 14 => [(gp r c .vintersect_lo, gp (r+1) c .hintersect_lo)]
  | _ => []

/-
Line stitching (isoliner::line_merge).
-/

/- Merge result: ok, the "cannot merge"/"unknown merge state" errors, or
fuel exhaustion of the reversal loop (which the C++ loops forever on). -/
inductive LineRes where
  | ok (m : GMap)
  | err
  | nofuel
deriving DecidableEq

/- The chain-reversal loop of score 1010: starting at cur, swap prev/next
and step to the old prev, until the old prev is the unset sentinel. -/
def revFromPrev (m : GMap) (cur : GridPoint) : ℕ → Option GMap
  | 0 => none
  | fuel + 1 =>
    if (m.get cur).prev = defaultPoint then
      some (m.set cur
        { m.get cur with prev := (m.get cur).next, next := (m.get cur).prev })
    else
      revFromPrev
        (m.set cur
          { m.get cur with prev := (m.get cur).next, next := (m.get cur).prev })
        (m.get cur).prev fuel

/- The chain-reversal loop of score 0101: starting at cur, swap next/prev
and step to the old next, until the old next is the unset sentinel. -/
def revFromNext (m : GMap) (cur : GridPoint) : ℕ → Option GMap
  | 0 => none
  | fuel + 1 =>
    if (m.get cur).next = defaultPoint then
      some (m.set cur
        { m.get cur with next := (m.get cur).prev, prev := (m.get cur).next })
    else
      revFromNext
        (m.set cur
          { m.get cur with next := (m.get cur).prev, prev := (m.get cur).next })
        (m.get cur).next fuel

/- polygon_grid[p].next = q (operator[] inserts the default record first
when p is missing). -/
def setNext (m : GMap) (p q : GridPoint) : GMap :=
  m.set p { m.get p with next := q }

def setPrev (m : GMap) (p q : GridPoint) : GMap :=
  m.set p { m.get p with prev := q }

/- The 4-bit emptiness score of the both-endpoints-present branch:
8*(a.next empty) + 4*(a.prev empty) + 2*(b.next empty) + (b.prev empty). -/
def lineScore2 (m : GMap) (a b : GridPoint) : ℕ :=
  8 * ((m.get a).next = defaultPoint : Bool).toNat +
  4 * ((m.get a).prev = defaultPoint : Bool).toNat +
  2 * ((m.get b).next = defaultPoint : Bool).toNat +
  ((m.get b).prev = defaultPoint : Bool).toNat

/- The score-3 branch of line_merge (both endpoints already present). -/
def lineMergeBoth (m : GMap) (a b : GridPoint) (fuel : ℕ) : LineRes :=
  match lineScore2 m a b with
  | 9 => LineRes.ok (setPrev (setNext m a b) b a)
  | 6 => LineRes.ok (setNext (setPrev m a b) b a)
  | 10 =>
    match revFromPrev (setNext (setNext m a b) b a) b fuel with
    | none => LineRes.nofuel
    | some m3 => LineRes.ok m3
  | 5 =>
    match revFromNext (setPrev (setPrev m a b) b a) a fuel with
    | none => LineRes.nofuel
    | some m3 => LineRes.ok m3
  | _ => LineRes.err

/- isoliner::line_merge on segment (a, b) = (tmp_poly[0], tmp_poly[1]). -/
def lineMerge (m : GMap) (a b : GridPoint) (fuel : ℕ) : LineRes :=
  match 2 * (m.contains b).toNat + (m.contains a).toNat with
  | 0 => LineRes.ok (setPrev (setNext m a b) b a)
  | 1 =>
    if (m.get a).next = defaultPoint then LineRes.ok (setPrev (setNext m a b) b a)
    else if (m.get a).prev = defaultPoint then LineRes.ok (setNext (setPrev m a b) b a)
    else LineRes.err
  | 2 =>
    if (m.get b).next = defaultPoint then LineRes.ok (setPrev (setNext m b a) a b)
    else if (m.get b).prev = defaultPoint then LineRes.ok (setNext (setPrev m b a) a b)
    else LineRes.err
  | 3 => lineMergeBoth m a b fuel
  | _ => LineRes.err

/- isoliner::calculate_contour: iterate cells row-major and line_merge every
emitted segment. -/
def lineMergeAll (m : GMap) (fuel : ℕ) : List (GridPoint × GridPoint) → LineRes
  | [] => LineRes.ok m
  | (a, b) :: rest =>
    match lineMerge m a b fuel with
    | LineRes.ok m2 => lineMergeAll m2 fuel rest
    | r => r

def lineCalcGo (g : Grid) (v : ℚ) (fuel : ℕ) (m : GMap) :
    List (Int × Int) → LineRes
  | [] => LineRes.ok m
  | (r, c) :: rest =>
    match lineMergeAll m fuel (lineCellEmit g v r c) with
    | LineRes.ok m2 => lineCalcGo g v fuel m2 rest
    | r2 => r2

def lineCalculate (g : Grid) (v : ℚ) (fuel : ℕ) : LineRes :=
  lineCalcGo g v fuel GMap.empty (cellList g)

/-
isoliner::collect.  For each un-collected key: walk prev links back to the
chain head (or around a loop), then walk next links forward emitting points
and marking them collected; a closed loop emits the anchor once more.
-/

/- The backtracking loop: cur starts at prev(start0) and keeps moving to
prev(cur) until it returns to start0 or reaches a vertex with unset prev. -/
def lineBack (m : GMap) (cur start0 : GridPoint) : ℕ → Option GridPoint
  | 0 => none
  | fuel + 1 =>
    if cur = start0 ∨ (m.get cur).prev = defaultPoint then some cur
    else lineBack m (m.get cur).prev start0 fuel

/- The forward walk: emit cur, mark it collected, move to next(cur); stop
when cur returns to the anchor or becomes the sentinel.  Returns the emitted
points and the stopping point. -/
def lineWalk (m : GMap) (cur anchor : GridPoint) :
    ℕ → Option (List GridPoint × GridPoint × GMap)
  | 0 => none
  | fuel + 1 =>
    if (m.get cur).next = anchor ∨ (m.get cur).next = defaultPoint then
      some ([cur], (m.get cur).next, m.set cur { m.get cur with collected := true })
    else
      match lineWalk (m.set cur { m.get cur with collected := true })
          (m.get cur).next anchor fuel with
      | none => none
      | some (pts, stop, m3) => some (cur :: pts, stop, m3)

/- One entry of the line collector: backtrack to the anchor, walk forward,
and append the anchor once more when the walk closed. -/
def lineEntryPath (m : GMap) (start0 : GridPoint) (fuel : ℕ) :
    Option (List GridPoint × GMap) :=
  match (if (m.get start0).prev = defaultPoint then some start0
         else lineBack m (m.get start0).prev start0 fuel) with
  | none => none
  | some anchor =>
    match lineWalk m anchor anchor fuel with
    | none => none
    | some (pts, stop, m2) =>
      if stop = anchor then some (pts ++ [anchor], m2) else some (pts, m2)

def lineCollectAux (m : GMap) (fuel : ℕ) :
    List GridPoint → ℕ → Option (List (ℕ × List GridPoint) × GMap)
  | [], _ => some ([], m)
  | k :: ks, n =>
    if (m.get k).collected = true then lineCollectAux m fuel ks n
    else
      match lineEntryPath m k fuel with
      | none => none
      | some (pts, m2) =>
        match lineCollectAux m2 fuel ks (n + 1) with
        | none => none
        | some (paths, m3) => some ((n + 1, pts) :: paths, m3)

def lineCollect (m : GMap) (fuel : ℕ) : Option (List (ℕ × List GridPoint)) :=
  match lineCollectAux m fuel m.keys 0 with
  | none => none
  | some (paths, _) => some paths

/- The whole isoliner pipeline at grid-point level.  Note that nothing up to
here reads vhi: the isoliner only sets vlo (isoliner::set_value), and vhi
enters only through calc_point_coords when coordinates are produced. -/
def lineRun (g : Grid) (v : ℚ) (fuel : ℕ) : Option (List (ℕ × List GridPoint)) :=
  match lineCalculate g v fuel with
  | LineRes.ok m => lineCollect m fuel
  | _ => none

/-
Auxiliary definitions used by the theorems below.
-/

/- The prev-pointer chain visited by the score-1010 reversal loop: cur, then
prev(cur), and so on, ending at the vertex whose prev is unset.  Fuel-indexed
like the loop itself. -/
def prevChain (m : GMap) (cur : GridPoint) : ℕ → Option (List GridPoint)
  | 0 => none
  | fuel + 1 =>
    if (m.get cur).prev = defaultPoint then some [cur]
    else
      match prevChain m (m.get cur).prev fuel with
      | none => none
      | some l => some (cur :: l)

/- The next-pointer chain visited by the score-0101 reversal loop. -/
def nextChain (m : GMap) (cur : GridPoint) : ℕ → Option (List GridPoint)
  | 0 => none
  | fuel + 1 =>
    if (m.get cur).next = defaultPoint then some [cur]
    else
      match nextChain m (m.get cur).next fuel with
      | none => none
      | some l => some (cur :: l)

/- Swapping the prev/next slots of one record. -/
def swapConnect (e : PointConnect) : PointConnect :=
  { e with prev := e.next, next := e.prev }

/- The point kinds an isoline segment endpoint can have. -/
def loKind (p : GridPoint) : Prop :=
  p.type = PointType.hintersect_lo ∨ p.type = PointType.vintersect_lo

/- A link field is either the unset sentinel or a low-kind point. -/
def loLink (p : GridPoint) : Prop := p = defaultPoint ∨ loKind p

/- Invariant of the isoliner connectivity map: all keys are low-kind points
and all primary links are unset or low-kind. -/
def loMap (m : GMap) : Prop :=
  ∀ kv ∈ m.entries, loKind kv.1 ∧ loLink kv.2.prev ∧ loLink kv.2.next

/- The 2x2 step grid of the specification scenarios: x = y = [0, 1], top row
z = 0, bottom row z = 2 (column-major z = [0, 2, 0, 2]). -/
def stepGrid : Grid :=
  { nrow := 2, ncol := 2,
    x := fun i => if i = 1 then 1 else 0,
    y := fun i => if i = 1 then 1 else 0,
    z := fun i => if i = 1 ∨ i = 3 then FVal.fin 2 else FVal.fin 0 }

/-
Claims about the classifier.
-/

/- The corner code of the specification: t = 0 below vlo, 1 in the band,
2 at or above vhi. -/
def tSpec (q vlo vhi : ℚ) : ℕ := if q < vlo then 0 else if q < vhi then 1 else 2

theorem ternarize_fin (q vlo vhi : ℚ) (h : vlo ≤ vhi) :
    ternarize (FVal.fin q) vlo vhi = tSpec q vlo vhi := by
  unfold ternarize tSpec FVal.fge FVal.flt
  rcases lt_or_le q vlo with h1 | h1
  · rw [if_pos h1]
    simp [not_le.2 h1, lt_of_lt_of_le h1 h]
  · rcases lt_or_le q vhi with h2 | h2
    · rw [if_neg (not_lt.2 h1), if_pos h2]
      simp [h1, h2, not_le.2 h2]
    · rw [if_neg (not_lt.2 h1), if_neg (not_lt.2 h2)]
      simp [h1, h2]

/-- Claim C5: for a cell (r, c) whose four corners are all finite, the
isobander cell index is 27*t(TL) + 9*t(TR) + 3*t(BR) + t(BL), where t is 0
below vlo, 1 in [vlo, vhi), 2 at or above vhi, and the corners TL = (r,c),
TR = (r,c+1), BR = (r+1,c+1), BL = (r+1,c) are read from z at offset
row + column * nrow. -/
theorem C5_band_cell_index (g : Grid) (vlo vhi : ℚ) (r c : Int)
    (hv : vlo ≤ vhi) (qTL qTR qBR qBL : ℚ)
    (hTL : g.z (r + c * g.nrow) = FVal.fin qTL)
    (hTR : g.z (r + (c + 1) * g.nrow) = FVal.fin qTR)
    (hBR : g.z (r + 1 + (c + 1) * g.nrow) = FVal.fin qBR)
    (hBL : g.z (r + 1 + c * g.nrow) = FVal.fin qBL) :
    bandCellIndex g vlo vhi r c =
      27 * tSpec qTL vlo vhi + 9 * tSpec qTR vlo vhi +
      3 * tSpec qBR vlo vhi + tSpec qBL vlo vhi := by
  unfold bandCellIndex cornersFinite Grid.zAt
  rw [hTL, hTR, hBR, hBL]
  simp [FVal.isFin, ternarize_fin _ _ _ hv]

theorem C5_witness :
    ((1 : ℚ)/2 ≤ 3/2) ∧
    bandCellIndex (Grid.mk 2 2 (fun _ => 0) (fun _ => 0)
        (fun i => FVal.fin (if i = 0 then 0 else 1))) (1/2) (3/2) 0 0 =
      27 * tSpec 0 (1/2) (3/2) + 9 * tSpec 1 (1/2) (3/2) +
      3 * tSpec 1 (1/2) (3/2) + tSpec 1 (1/2) (3/2) := by
  refine ⟨by norm_num, ?_⟩
  exact C5_band_cell_index _ _ _ 0 0 (by norm_num) 0 1 1 1 (by norm_num)
    (by norm_num) (by norm_num) (by norm_num)

/-- Claim C6: a cell whose binarized isoline index is 5 or 10 has the two
saddle cases swapped exactly when the central value, the arithmetic mean of
the four corner z values, is strictly below the threshold v; at or above v
the index is left unchanged. -/
theorem C6_line_saddle (g : Grid) (v : ℚ) (r c : Int)
    (h : lineCellIndexRaw g v r c = 5 ∨ lineCellIndexRaw g v r c = 10) :
    lineCellIndex g v r c =
      if ((g.zAt r c).toQ + (g.zAt r (c+1)).toQ +
          (g.zAt (r+1) c).toQ + (g.zAt (r+1) (c+1)).toQ) / 4 < v then
        15 - lineCellIndexRaw g v r c
      else lineCellIndexRaw g v r c := by
  have hc : centralValue g r c =
      ((g.zAt r c).toQ + (g.zAt r (c+1)).toQ +
       (g.zAt (r+1) c).toQ + (g.zAt (r+1) (c+1)).toQ) / 4 := rfl
  unfold lineCellIndex
  rcases h with h | h <;> rw [h] <;> rw [← hc] <;>
    rcases lt_or_le (centralValue g r c) v with hv | hv <;>
    first
      | simp [not_lt.2 hv]
      | simp [hv]

theorem C6_witness :
    (lineCellIndexRaw (Grid.mk 2 2 (fun _ => 0) (fun _ => 0)
        (fun i => FVal.fin (if i = 0 ∨ i = 3 then 2 else 0))) 1 0 0 = 5 ∨
     lineCellIndexRaw (Grid.mk 2 2 (fun _ => 0) (fun _ => 0)
        (fun i => FVal.fin (if i = 0 ∨ i = 3 then 2 else 0))) 1 0 0 = 10) ∧
    lineCellIndex (Grid.mk 2 2 (fun _ => 0) (fun _ => 0)
        (fun i => FVal.fin (if i = 0 ∨ i = 3 then 2 else 0))) 1 0 0 = 10 := by
  have h := C6_line_saddle (Grid.mk 2 2 (fun _ => 0) (fun _ => 0)
    (fun i => FVal.fin (if i = 0 ∨ i = 3 then 2 else 0))) 1 0 0 (Or.inr (by decide))
  refine ⟨Or.inr (by decide), ?_⟩
  rw [h]
  norm_num [Grid.zAt, FVal.toQ]
  decide

/-- Claim C7: in both engines, a cell with a non-finite corner has its case
index forced to 0 and contributes no elementary polygons or segments, while
a cell with four finite corners is classified by the normal index formula,
so a non-finite value suppresses only the cells that touch it. -/
theorem C7_nonfinite_rule (g : Grid) (vlo vhi v : ℚ) (r c : Int) :
    (cornersFinite g r c = false →
      bandCellIndex g vlo vhi r c = 0 ∧ lineCellIndexRaw g v r c = 0 ∧
      lineCellIndex g v r c = 0 ∧
      bandCellEmit g vlo vhi r c = [] ∧ lineCellEmit g v r c = []) ∧
    (cornersFinite g r c = true →
      bandCellIndex g vlo vhi r c =
        27 * ternarize (g.zAt r c) vlo vhi + 9 * ternarize (g.zAt r (c+1)) vlo vhi +
        3 * ternarize (g.zAt (r+1) (c+1)) vlo vhi + ternarize (g.zAt (r+1) c) vlo vhi ∧
      lineCellIndexRaw g v r c =
        8 * binarize (g.zAt r c) v + 4 * binarize (g.zAt r (c+1)) v +
        2 * binarize (g.zAt (r+1) (c+1)) v + binarize (g.zAt (r+1) c) v) := by
  constructor
  · intro hf
    have hb : bandCellIndex g vlo vhi r c = 0 := by unfold bandCellIndex; rw [hf]; rfl
    have hl : lineCellIndexRaw g v r c = 0 := by unfold lineCellIndexRaw; rw [hf]; rfl
    refine ⟨hb, hl, ?_, ?_, ?_⟩
    · unfold lineCellIndex
      rw [hl]
      simp
    · unfold bandCellEmit
      rw [hb]
    · unfold lineCellEmit
      unfold lineCellIndex
      rw [hl]
      simp
  · intro hf
    constructor
    · unfold bandCellIndex
      rw [hf]
      rfl
    · unfold lineCellIndexRaw
      rw [hf]
      rfl

theorem C7_witness :
    cornersFinite (Grid.mk 2 2 (fun _ => 0) (fun _ => 0)
        (fun i => if i = 0 then FVal.nan else FVal.fin 1)) 0 0 = false ∧
    bandCellEmit (Grid.mk 2 2 (fun _ => 0) (fun _ => 0)
        (fun i => if i = 0 then FVal.nan else FVal.fin 1)) 0 1 0 0 = [] ∧
    lineCellEmit (Grid.mk 2 2 (fun _ => 0) (fun _ => 0)
        (fun i => if i = 0 then FVal.nan else FVal.fin 1)) (1/2) 0 0 = [] := by
  have h := (C7_nonfinite_rule (Grid.mk 2 2 (fun _ => 0) (fun _ => 0)
    (fun i => if i = 0 then FVal.nan else FVal.fin 1)) 0 1 (1/2) 0 0).1 (by decide)
  exact ⟨by decide, h.2.2.2.1, h.2.2.2.2⟩

set_option maxHeartbeats 1000000 in
/-- Claim C9: every elementary polygon emitted for any isobander cell has at
most 8 vertices, so every write into the fixed 8-element elementary-polygon
buffer is within bounds, in all cell cases including the saddle sub-cases. -/
theorem C9_poly_size (g : Grid) (vlo vhi : ℚ) (r c : Int)
    (poly : List GridPoint) (hmem : poly ∈ bandCellEmit g vlo vhi r c) :
    poly.length ≤ 8 := by
  unfold bandCellEmit at hmem
  split at hmem
  all_goals try split at hmem
  all_goals try split at hmem
  all_goals simp only [List.mem_cons, List.not_mem_nil, or_false] at hmem
  all_goals rcases hmem with rfl | rfl <;> simp

theorem C9_witness :
    (gp 0 0 .grid :: [gp 0 1 .grid, gp 1 1 .grid, gp 1 0 .grid]) ∈
      bandCellEmit (Grid.mk 2 2 (fun _ => 0) (fun _ => 0) (fun _ => FVal.fin 1))
        0 2 0 0 ∧
    List.length (gp 0 0 .grid :: [gp 0 1 .grid, gp 1 1 .grid, gp 1 0 .grid]) ≤ 8 := by
  refine ⟨by decide, ?_⟩
  exact C9_poly_size (Grid.mk 2 2 (fun _ => 0) (fun _ => 0) (fun _ => FVal.fin 1))
    0 2 0 0 _ (by decide)

/-
Claim C2: behaviour of the isobander when vlo == vhi.
-/

theorem ternarize_vv (z : FVal) (v : ℚ) : ternarize z v v = 0 ∨ ternarize z v v = 2 := by
  rcases z with q | _ | _ | _
  · unfold ternarize FVal.fge FVal.flt
    rcases le_or_lt v q with h | h
    · right; simp [h, not_lt.2 h]
    · left; simp [not_le.2 h]
  · left; rfl
  · right; rfl
  · left; rfl

theorem bandCellIndex_vv_mem (g : Grid) (v : ℚ) (r c : Int) :
    bandCellIndex g v v r c ∈
      [0, 2, 6, 8, 18, 20, 24, 26, 54, 56, 60, 62, 72, 74, 78, 80] := by
  unfold bandCellIndex
  by_cases hf : cornersFinite g r c
  · simp only [hf, Bool.not_true, Bool.false_eq_true, if_false]
    rcases ternarize_vv (g.zAt r c) v with h1 | h1 <;>
      rcases ternarize_vv (g.zAt r (c+1)) v with h2 | h2 <;>
      rcases ternarize_vv (g.zAt (r+1) (c+1)) v with h3 | h3 <;>
      rcases ternarize_vv (g.zAt (r+1) c) v with h4 | h4 <;>
      rw [h1, h2, h3, h4] <;> decide
  · simp [eq_false_of_ne_true hf]

/-- Claim C2, counterexample: on the 2x2 step grid with vlo = vhi = 1, the
isobander pipeline collects a degenerate 4-point ring, so len = 4, not 0 as
the claim states. -/
theorem C2_counterexample :
    (bandRun stepGrid 1 1 100).map resultLen = some 4 := by decide

set_option maxHeartbeats 1000000 in
/-- Claim C2, amended: with vlo == vhi, no grid value is classified as
in-band (the ternarized value is never 1), and every vertex of every
elementary polygon emitted by calculate_contour is a threshold-crossing
point, never a grid corner — the bands are degenerate zero-width rings, but
the collected result need not be empty. -/
theorem C2_vlo_eq_vhi_degenerate (g : Grid) (v : ℚ) (r c : Int) :
    (∀ z, ternarize z v v ≠ 1) ∧
    ∀ poly ∈ bandCellEmit g v v r c, ∀ p ∈ poly, p.type ≠ PointType.grid := by
  constructor
  · intro z
    rcases ternarize_vv z v with h | h <;> simp [h]
  · intro poly hmem
    have hidx := bandCellIndex_vv_mem g v r c
    unfold bandCellEmit at hmem
    split at hmem
    all_goals try split at hmem
    all_goals try split at hmem
    all_goals simp only [List.mem_cons, List.not_mem_nil, or_false] at hmem
    all_goals first
      | (rcases hmem with rfl | rfl <;> (simp [gp]; done))
      | simp_all

theorem C2_witness :
    ternarize (FVal.fin 0) 1 1 ≠ 1 ∧
    ([gp 0 0 .vintersect_lo, gp 0 1 .vintersect_lo,
      gp 0 1 .vintersect_hi, gp 0 0 .vintersect_hi] ∈ bandCellEmit stepGrid 1 1 0 0) ∧
    (gp 0 0 .vintersect_lo).type ≠ PointType.grid := by
  refine ⟨(C2_vlo_eq_vhi_degenerate stepGrid 1 0 0).1 (FVal.fin 0), by decide, ?_⟩
  exact (C2_vlo_eq_vhi_degenerate stepGrid 1 0 0).2
    [gp 0 0 .vintersect_lo, gp 0 1 .vintersect_lo,
     gp 0 1 .vintersect_hi, gp 0 0 .vintersect_hi] (by decide)
    (gp 0 0 .vintersect_lo) (by decide)

/-
Claim C3: the alternative-point branch of poly_merge.
-/

theorem altScore_le (t e : PointConnect) : altScore t e ≤ 15 := by
  unfold altScore
  rcases (t.next = e.prev2 : Bool) <;> rcases (t.prev = e.next2 : Bool) <;>
    rcases (t.next = e.prev : Bool) <;> rcases (t.prev = e.next : Bool) <;> simp

set_option maxHeartbeats 1000000 in
/-- Claim C3: when poly_merge finds the vertex already present with an
occupied alternate slot, the 4-bit score is handled exactly for the values
9 and 6 (three-way merge: the result collapses to one point, no alternate),
8 and 4 (two-way merge on the alternate side: the existing primary links are
kept unchanged), and 2 and 1 (two-way merge on the primary side: the
existing alternate links are kept unchanged); every other score raises the
logic error, and the error is raised only for those other scores.  The
tentative record always carries altpoint = false at this point of the
loop. -/
theorem C3_alt_merge (t e : PointConnect) (ht : t.altpoint = false) :
    ((mergeWithAlt t e).isOk = true ↔
      altScore t e = 9 ∨ altScore t e = 6 ∨ altScore t e = 8 ∨
      altScore t e = 4 ∨ altScore t e = 2 ∨ altScore t e = 1) ∧
    ∀ res, mergeWithAlt t e = Except.ok res →
      ((res.altpoint = false ↔ (altScore t e = 9 ∨ altScore t e = 6)) ∧
       (altScore t e = 9 → res.next = e.next2 ∧ res.prev = e.prev) ∧
       (altScore t e = 6 → res.next = e.next ∧ res.prev = e.prev2) ∧
       ((altScore t e = 8 ∨ altScore t e = 4) →
         res.prev = e.prev ∧ res.next = e.next ∧ res.altpoint = true) ∧
       ((altScore t e = 2 ∨ altScore t e = 1) →
         res.prev2 = e.prev2 ∧ res.next2 = e.next2 ∧ res.altpoint = true)) := by
  have hle := altScore_le t e
  unfold mergeWithAlt
  set s := altScore t e with hs
  interval_cases s <;> (replace hs := hs.symm) <;>
    simp_all [Except.isOk, Except.toBool]

theorem C3_witness :
    ((PointConnect.mk (gp 0 0 .grid) (gp 0 1 .grid) defaultPoint defaultPoint
        false false false).altpoint = false) ∧
    altScore
      (PointConnect.mk (gp 0 0 .grid) (gp 0 1 .grid) defaultPoint defaultPoint
        false false false)
      (PointConnect.mk (gp 1 1 .grid) (gp 0 0 .grid) (gp 0 1 .grid) (gp 1 0 .grid)
        true false false) = 9 ∧
    (mergeWithAlt
      (PointConnect.mk (gp 0 0 .grid) (gp 0 1 .grid) defaultPoint defaultPoint
        false false false)
      (PointConnect.mk (gp 1 1 .grid) (gp 0 0 .grid) (gp 0 1 .grid) (gp 1 0 .grid)
        true false false)).isOk = true := by
  refine ⟨rfl, by decide, ?_⟩
  exact (C3_alt_merge _ _ rfl).1.mpr (Or.inl (by decide))

/-
Claim C4: line_merge with both endpoints present.
-/

theorem lookupEntry_setEntry_self (p : GridPoint) (v : PointConnect)
    (l : List (GridPoint × PointConnect)) :
    lookupEntry p (setEntry p v l) = some v := by
  induction l with
  | nil => simp [setEntry, lookupEntry]
  | cons kv rest ih =>
    by_cases h : kv.1 = p
    · simp [setEntry, lookupEntry, h]
    · simp [setEntry, lookupEntry, h, ih]

theorem lookupEntry_setEntry_ne (p q : GridPoint) (v : PointConnect)
    (l : List (GridPoint × PointConnect)) (h : q ≠ p) :
    lookupEntry q (setEntry p v l) = lookupEntry q l := by
  have hp : p ≠ q := fun hh => h hh.symm
  induction l with
  | nil => simp [setEntry, lookupEntry, hp]
  | cons kv rest ih =>
    by_cases hk : kv.1 = p
    · subst hk
      simp [setEntry, lookupEntry, hp]
    · by_cases hq : kv.1 = q
      · simp [setEntry, lookupEntry, hk, hq, h]
      · simp [setEntry, lookupEntry, hk, hq, ih]

theorem GMap.get_set_self (m : GMap) (p : GridPoint) (v : PointConnect) :
    (m.set p v).get p = v := by
  unfold GMap.get GMap.set GMap.find?
  simp [lookupEntry_setEntry_self]

theorem GMap.get_set_ne (m : GMap) (p q : GridPoint) (v : PointConnect) (h : q ≠ p) :
    (m.set p v).get q = m.get q := by
  unfold GMap.get GMap.set GMap.find?
  simp [lookupEntry_setEntry_ne _ _ _ _ h]

theorem prevChain_congr (fuel : ℕ) :
    ∀ (m m2 : GMap) (cur : GridPoint) (l : List GridPoint),
      prevChain m cur fuel = some l → (∀ v ∈ l, m2.get v = m.get v) →
      prevChain m2 cur fuel = some l := by
  induction fuel with
  | zero => intro m m2 cur l h; simp [prevChain] at h
  | succ fuel ih =>
    intro m m2 cur l h hagree
    unfold prevChain at h ⊢
    by_cases hp : (m.get cur).prev = defaultPoint
    · rw [if_pos hp] at h
      injection h with h
      subst h
      rw [hagree cur (by simp), if_pos hp]
    · rw [if_neg hp] at h
      cases hrec : prevChain m (m.get cur).prev fuel with
      | none => rw [hrec] at h; cases h
      | some l2 =>
        rw [hrec] at h
        injection h with h
        subst h
        have hcur : m2.get cur = m.get cur := hagree cur (by simp)
        rw [hcur, if_neg hp,
          ih m m2 (m.get cur).prev l2 hrec (fun v hv => hagree v (by simp [hv]))]

theorem nextChain_congr (fuel : ℕ) :
    ∀ (m m2 : GMap) (cur : GridPoint) (l : List GridPoint),
      nextChain m cur fuel = some l → (∀ v ∈ l, m2.get v = m.get v) →
      nextChain m2 cur fuel = some l := by
  induction fuel with
  | zero => intro m m2 cur l h; simp [nextChain] at h
  | succ fuel ih =>
    intro m m2 cur l h hagree
    unfold nextChain at h ⊢
    by_cases hp : (m.get cur).next = defaultPoint
    · rw [if_pos hp] at h
      injection h with h
      subst h
      rw [hagree cur (by simp), if_pos hp]
    · rw [if_neg hp] at h
      cases hrec : nextChain m (m.get cur).next fuel with
      | none => rw [hrec] at h; cases h
      | some l2 =>
        rw [hrec] at h
        injection h with h
        subst h
        have hcur : m2.get cur = m.get cur := hagree cur (by simp)
        rw [hcur, if_neg hp,
          ih m m2 (m.get cur).next l2 hrec (fun v hv => hagree v (by simp [hv]))]

/- The reversal loop of score 1010, characterised: it succeeds on a
duplicate-free chain, swaps prev/next at every chain vertex and leaves every
other vertex untouched. -/
theorem revFromPrev_spec (fuel : ℕ) :
    ∀ (m : GMap) (cur : GridPoint) (l : List GridPoint),
      prevChain m cur fuel = some l → l.Nodup →
      ∃ m', revFromPrev m cur fuel = some m' ∧
        (∀ v ∈ l, m'.get v = swapConnect (m.get v)) ∧
        (∀ w, w ∉ l → m'.get w = m.get w) := by
  induction fuel with
  | zero => intro m cur l h; simp [prevChain] at h
  | succ fuel ih =>
    intro m cur l h hnd
    unfold prevChain at h
    unfold revFromPrev
    by_cases hp : (m.get cur).prev = defaultPoint
    · rw [if_pos hp] at h
      injection h with h
      subst h
      rw [if_pos hp]
      refine ⟨_, rfl, ?_, ?_⟩
      · intro v hv
        simp only [List.mem_singleton] at hv
        subst hv
        rw [GMap.get_set_self]
        rfl
      · intro w hw
        simp only [List.mem_singleton] at hw
        rw [GMap.get_set_ne _ _ _ _ hw]
    · rw [if_neg hp] at h
      cases hrec : prevChain m (m.get cur).prev fuel with
      | none => rw [hrec] at h; cases h
      | some l2 =>
        rw [hrec] at h
        injection h with h
        subst h
        rw [List.nodup_cons] at hnd
        have hagree : ∀ v ∈ l2,
            (m.set cur (swapConnect (m.get cur))).get v = m.get v := by
          intro v hv
          exact GMap.get_set_ne _ _ _ _ (fun hvc => hnd.1 (hvc ▸ hv))
        have hchain2 := prevChain_congr fuel m
          (m.set cur (swapConnect (m.get cur))) (m.get cur).prev l2 hrec hagree
        obtain ⟨m', hrev, hswap, hother⟩ :=
          ih (m.set cur (swapConnect (m.get cur))) (m.get cur).prev l2 hchain2 hnd.2
        refine ⟨m', ?_, ?_, ?_⟩
        · rw [if_neg hp]
          exact hrev
        · intro v hv
          rcases List.mem_cons.1 hv with rfl | hv2
          · rw [hother v hnd.1, GMap.get_set_self]
          · rw [hswap v hv2, hagree v hv2]
        · intro w hw
          simp only [List.mem_cons, not_or] at hw
          rw [hother w hw.2, GMap.get_set_ne _ _ _ _ hw.1]

/- The mirror reversal loop of score 0101. -/
theorem revFromNext_spec (fuel : ℕ) :
    ∀ (m : GMap) (cur : GridPoint) (l : List GridPoint),
      nextChain m cur fuel = some l → l.Nodup →
      ∃ m', revFromNext m cur fuel = some m' ∧
        (∀ v ∈ l, m'.get v = swapConnect (m.get v)) ∧
        (∀ w, w ∉ l → m'.get w = m.get w) := by
  induction fuel with
  | zero => intro m cur l h; simp [nextChain] at h
  | succ fuel ih =>
    intro m cur l h hnd
    unfold nextChain at h
    unfold revFromNext
    by_cases hp : (m.get cur).next = defaultPoint
    · rw [if_pos hp] at h
      injection h with h
      subst h
      rw [if_pos hp]
      refine ⟨_, rfl, ?_, ?_⟩
      · intro v hv
        simp only [List.mem_singleton] at hv
        subst hv
        rw [GMap.get_set_self]
        rfl
      · intro w hw
        simp only [List.mem_singleton] at hw
        rw [GMap.get_set_ne _ _ _ _ hw]
    · rw [if_neg hp] at h
      cases hrec : nextChain m (m.get cur).next fuel with
      | none => rw [hrec] at h; cases h
      | some l2 =>
        rw [hrec] at h
        injection h with h
        subst h
        rw [List.nodup_cons] at hnd
        have hagree : ∀ v ∈ l2,
            (m.set cur (swapConnect (m.get cur))).get v = m.get v := by
          intro v hv
          exact GMap.get_set_ne _ _ _ _ (fun hvc => hnd.1 (hvc ▸ hv))
        have hchain2 := nextChain_congr fuel m
          (m.set cur (swapConnect (m.get cur))) (m.get cur).next l2 hrec hagree
        obtain ⟨m', hrev, hswap, hother⟩ :=
          ih (m.set cur (swapConnect (m.get cur))) (m.get cur).next l2 hchain2 hnd.2
        refine ⟨m', ?_, ?_, ?_⟩
        · rw [if_neg hp]
          exact hrev
        · intro v hv
          rcases List.mem_cons.1 hv with rfl | hv2
          · rw [hother v hnd.1, GMap.get_set_self]
          · rw [hswap v hv2, hagree v hv2]
        · intro w hw
          simp only [List.mem_cons, not_or] at hw
          rw [hother w hw.2, GMap.get_set_ne _ _ _ _ hw.1]

theorem lineScore2_le (m : GMap) (a b : GridPoint) : lineScore2 m a b ≤ 15 := by
  unfold lineScore2
  rcases ((m.get a).next = defaultPoint : Bool) <;>
    rcases ((m.get a).prev = defaultPoint : Bool) <;>
    rcases ((m.get b).next = defaultPoint : Bool) <;>
    rcases ((m.get b).prev = defaultPoint : Bool) <;> simp

set_option maxHeartbeats 1000000 in
/-- Claim C4: when line_merge sees a segment (a, b) with both endpoints
already present, the 4-bit emptiness score 8*(a.next empty) + 4*(a.prev
empty) + 2*(b.next empty) + (b.prev empty) is handled only for the values 9,
6, 10 and 5: 9 sets a.next := b and b.prev := a; 6 sets a.prev := b and
b.next := a; 10 sets a.next := b and b.next := a and then reverses the chain
reachable from b by swapping prev/next along the chain until an empty link;
5 sets a.prev := b and b.prev := a and reverses the chain reachable from a;
any other value raises an error. -/
theorem C4_line_merge (m : GMap) (a b : GridPoint) (fuel : ℕ)
    (ha : m.contains a = true) (hb : m.contains b = true) :
    (lineMerge m a b fuel = LineRes.err ↔
      ¬(lineScore2 m a b = 9 ∨ lineScore2 m a b = 6 ∨
        lineScore2 m a b = 10 ∨ lineScore2 m a b = 5)) ∧
    ∀ m', lineMerge m a b fuel = LineRes.ok m' →
      ((lineScore2 m a b = 9 → (m'.get a).next = b ∧ (m'.get b).prev = a) ∧
       (lineScore2 m a b = 6 → (m'.get a).prev = b ∧ (m'.get b).next = a) ∧
       (lineScore2 m a b = 10 → ∀ l,
          prevChain (setNext (setNext m a b) b a) b fuel = some l → l.Nodup →
          (∀ v ∈ l, m'.get v = swapConnect ((setNext (setNext m a b) b a).get v)) ∧
          (∀ w, w ∉ l → m'.get w = (setNext (setNext m a b) b a).get w)) ∧
       (lineScore2 m a b = 5 → ∀ l,
          nextChain (setPrev (setPrev m a b) b a) a fuel = some l → l.Nodup →
          (∀ v ∈ l, m'.get v = swapConnect ((setPrev (setPrev m a b) b a).get v)) ∧
          (∀ w, w ∉ l → m'.get w = (setPrev (setPrev m a b) b a).get w))) := by
  have hred : lineMerge m a b fuel = lineMergeBoth m a b fuel := by
    unfold lineMerge
    rw [ha, hb]
    rfl
  rw [hred]
  unfold lineMergeBoth
  have hle := lineScore2_le m a b
  set s := lineScore2 m a b with hs
  interval_cases s
  on_goal 11 =>
    rcases hrev : revFromPrev (setNext (setNext m a b) b a) b fuel with _ | m3
    · simp [hrev]
    · simp only [hrev]
      refine ⟨by simp, ?_⟩
      intro m' hm'
      injection hm' with hm'
      subst hm'
      refine ⟨by simp, by simp, ?_, by simp⟩
      intro _ l hchain hnd
      obtain ⟨m2, hrev2, hswap, hother⟩ := revFromPrev_spec fuel _ b l hchain hnd
      rw [hrev2] at hrev
      injection hrev with hrev
      subst hrev
      exact ⟨hswap, hother⟩
  on_goal 10 =>
    refine ⟨by simp, ?_⟩
    intro m' hm'
    injection hm' with hm'
    subst hm'
    refine ⟨?_, by simp, by simp, by simp⟩
    intro _
    constructor
    · by_cases hab : a = b
      · subst hab
        simp [setPrev, setNext, GMap.get_set_self]
      · rw [setPrev, GMap.get_set_ne _ _ _ _ hab, setNext, GMap.get_set_self]
    · rw [setPrev, GMap.get_set_self]
  on_goal 7 =>
    refine ⟨by simp, ?_⟩
    intro m' hm'
    injection hm' with hm'
    subst hm'
    refine ⟨by simp, ?_, by simp, by simp⟩
    intro _
    constructor
    · by_cases hab : a = b
      · subst hab
        simp [setPrev, setNext, GMap.get_set_self]
      · rw [setNext, GMap.get_set_ne _ _ _ _ hab, setPrev, GMap.get_set_self]
    · rw [setNext, GMap.get_set_self]
  on_goal 6 =>
    rcases hrev : revFromNext (setPrev (setPrev m a b) b a) a fuel with _ | m3
    · simp [hrev]
    · simp only [hrev]
      refine ⟨by simp, ?_⟩
      intro m' hm'
      injection hm' with hm'
      subst hm'
      refine ⟨by simp, by simp, by simp, ?_⟩
      intro _ l hchain hnd
      obtain ⟨m2, hrev2, hswap, hother⟩ := revFromNext_spec fuel _ a l hchain hnd
      rw [hrev2] at hrev
      injection hrev with hrev
      subst hrev
      exact ⟨hswap, hother⟩
  all_goals simp

theorem C4_witness :
    ((GMap.mk [(gp 0 0 .vintersect_lo,
        PointConnect.mk (gp 5 5 .grid) defaultPoint defaultPoint defaultPoint
          false false false),
      (gp 0 1 .vintersect_lo,
        PointConnect.mk defaultPoint (gp 6 6 .grid) defaultPoint defaultPoint
          false false false)]).contains (gp 0 0 .vintersect_lo) = true) ∧
    (lineMerge (GMap.mk [(gp 0 0 .vintersect_lo,
        PointConnect.mk (gp 5 5 .grid) defaultPoint defaultPoint defaultPoint
          false false false),
      (gp 0 1 .vintersect_lo,
        PointConnect.mk defaultPoint (gp 6 6 .grid) defaultPoint defaultPoint
          false false false)]) (gp 0 0 .vintersect_lo) (gp 0 1 .vintersect_lo) 10 =
        LineRes.err ↔
      ¬(lineScore2 (GMap.mk [(gp 0 0 .vintersect_lo,
          PointConnect.mk (gp 5 5 .grid) defaultPoint defaultPoint defaultPoint
            false false false),
        (gp 0 1 .vintersect_lo,
          PointConnect.mk defaultPoint (gp 6 6 .grid) defaultPoint defaultPoint
            false false false)]) (gp 0 0 .vintersect_lo) (gp 0 1 .vintersect_lo) = 9 ∨
        lineScore2 (GMap.mk [(gp 0 0 .vintersect_lo,
          PointConnect.mk (gp 5 5 .grid) defaultPoint defaultPoint defaultPoint
            false false false),
        (gp 0 1 .vintersect_lo,
          PointConnect.mk defaultPoint (gp 6 6 .grid) defaultPoint defaultPoint
            false false false)]) (gp 0 0 .vintersect_lo) (gp 0 1 .vintersect_lo) = 6 ∨
        lineScore2 (GMap.mk [(gp 0 0 .vintersect_lo,
          PointConnect.mk (gp 5 5 .grid) defaultPoint defaultPoint defaultPoint
            false false false),
        (gp 0 1 .vintersect_lo,
          PointConnect.mk defaultPoint (gp 6 6 .grid) defaultPoint defaultPoint
            false false false)]) (gp 0 0 .vintersect_lo) (gp 0 1 .vintersect_lo) = 10 ∨
        lineScore2 (GMap.mk [(gp 0 0 .vintersect_lo,
          PointConnect.mk (gp 5 5 .grid) defaultPoint defaultPoint defaultPoint
            false false false),
        (gp 0 1 .vintersect_lo,
          PointConnect.mk defaultPoint (gp 6 6 .grid) defaultPoint defaultPoint
            false false false)]) (gp 0 0 .vintersect_lo) (gp 0 1 .vintersect_lo) = 5)) := by
  refine ⟨by decide, ?_⟩
  exact (C4_line_merge _ (gp 0 0 .vintersect_lo) (gp 0 1 .vintersect_lo) 10
    (by decide) (by decide)).1

/-
Claim C8: dense path ids in collected results.
-/
theorem constBlock_chain (k : ℕ) (pts : List GridPoint) :
    (pts.map (fun _ => k)).Chain' (fun i j => j = i ∨ j = i + 1) := by
  induction pts with
  | nil => simp
  | cons x xs ih =>
    cases xs with
    | nil => simp
    | cons y ys =>
      rw [List.map_cons] at ih ⊢
      rw [List.map_cons, List.chain'_cons]
      exact ⟨Or.inl rfl, ih⟩

theorem flatIds_cons (k : ℕ) (pts : List GridPoint) (tl : List (ℕ × List GridPoint)) :
    flatIds ((k, pts) :: tl) = pts.map (fun _ => k) ++ flatIds tl := by
  simp [flatIds]

theorem idsChain_blocks :
    ∀ (paths : List (ℕ × List GridPoint)) (n : ℕ),
      List.map Prod.fst paths = List.range' (n + 1) paths.length →
      (∀ p ∈ paths, p.2 ≠ []) →
      (flatIds paths).Chain' (fun i j => j = i ∨ j = i + 1) ∧
      (paths = [] ∨ (flatIds paths).head? = some (n + 1)) := by
  intro paths
  induction paths with
  | nil => intro n _ _; simp [flatIds]
  | cons hd tl ih =>
    intro n htags hne
    obtain ⟨k, pts⟩ := hd
    have hrange : List.range' (n + 1) (tl.length + 1) = (n + 1) :: List.range' (n + 2) tl.length := rfl
    rw [List.length_cons, hrange, List.map_cons, List.cons_eq_cons] at htags
    obtain ⟨hk, htl⟩ := htags
    have hptsne : pts ≠ [] := hne (k, pts) (by simp)
    obtain ⟨ihc, ihh⟩ := ih (n + 1) htl (fun p hp => hne p (by simp [hp]))
    have hblockhead : (pts.map (fun _ => k)).head? = some k := by
      cases pts with
      | nil => exact absurd rfl hptsne
      | cons a l => simp
    have hblocklast : (pts.map (fun _ => k)).getLast? = some k := by
      rw [List.getLast?_map]
      cases hgl : pts.getLast? with
      | none => exact absurd (List.getLast?_eq_none_iff.1 hgl) hptsne
      | some w => simp
    constructor
    · rw [flatIds_cons]
      refine List.Chain'.append (constBlock_chain k pts) ihc ?_
      intro x hx y hy
      rw [hblocklast] at hx
      simp only [Option.mem_def, Option.some_inj] at hx
      subst hx
      rcases ihh with h | h
      · subst h
        simp [flatIds] at hy
      · rw [h] at hy
        simp only [Option.mem_def, Option.some_inj] at hy
        subst hy
        right
        omega
    · right
      rw [flatIds_cons, List.head?_append, hblockhead]
      simpa using hk

theorem bandWalk_nonempty :
    ∀ (fuel : ℕ) (m : GMap) (cur prev start : GridPoint) (pts : List GridPoint)
      (m2 : GMap), bandWalk m cur prev start fuel = some (pts, m2) → pts ≠ [] := by
  intro fuel m cur prev start pts m2 h
  cases fuel with
  | zero => simp [bandWalk] at h
  | succ fuel =>
    unfold bandWalk at h
    repeat' split at h
    all_goals first
      | (simp_all; done)
      | (simp only [Option.some_inj, Prod.mk.injEq] at h
         obtain ⟨h1, h2⟩ := h
         exact h1 ▸ (by simp))

theorem lineWalk_nonempty :
    ∀ (fuel : ℕ) (m : GMap) (cur anchor : GridPoint) (pts : List GridPoint)
      (stop : GridPoint) (m2 : GMap),
      lineWalk m cur anchor fuel = some (pts, stop, m2) → pts ≠ [] := by
  intro fuel m cur anchor pts stop m2 h
  cases fuel with
  | zero => simp [lineWalk] at h
  | succ fuel =>
    unfold lineWalk at h
    repeat' split at h
    all_goals first
      | (simp_all; done)
      | (simp only [Option.some_inj, Prod.mk.injEq] at h
         obtain ⟨h1, h2⟩ := h
         exact h1 ▸ (by simp))

theorem lineEntryPath_nonempty (m : GMap) (k : GridPoint) (fuel : ℕ)
    (pts : List GridPoint) (m2 : GMap)
    (h : lineEntryPath m k fuel = some (pts, m2)) : pts ≠ [] := by
  unfold lineEntryPath at h
  cases hanchor : (if (m.get k).prev = defaultPoint then some k
      else lineBack m (m.get k).prev k fuel) with
  | none => rw [hanchor] at h; simp at h
  | some anchor =>
    rw [hanchor] at h
    dsimp only [] at h
    cases hwalk : lineWalk m anchor anchor fuel with
    | none => rw [hwalk] at h; simp at h
    | some res =>
      obtain ⟨pts2, stop, m3⟩ := res
      rw [hwalk] at h
      dsimp only [] at h
      split at h <;> simp only [Option.some_inj, Prod.mk.injEq] at h <;>
        obtain ⟨h1, -⟩ := h
      · exact h1 ▸ (by simp)
      · exact h1 ▸ lineWalk_nonempty fuel m anchor anchor pts2 stop m3 hwalk

theorem bandCollectAux_tags :
    ∀ (keys : List GridPoint) (m : GMap) (n fuel : ℕ)
      (paths : List (ℕ × List GridPoint)) (m2 : GMap),
      bandCollectAux m fuel keys n = some (paths, m2) →
      List.map Prod.fst paths = List.range' (n + 1) paths.length ∧
      ∀ p ∈ paths, p.2 ≠ [] := by
  intro keys
  induction keys with
  | nil =>
    intro m n fuel paths m2 h
    unfold bandCollectAux at h
    simp only [Option.some_inj, Prod.mk.injEq] at h
    obtain ⟨h1, _⟩ := h
    subst h1
    simp
  | cons k ks ih =>
    intro m n fuel paths m2 h
    unfold bandCollectAux at h
    split at h
    · exact ih m n fuel paths m2 h
    · split at h
      · simp at h
      · rename_i pts mw hwalk
        split at h
        · simp at h
        · rename_i paths2 m3 haux
          simp only [Option.some_inj, Prod.mk.injEq] at h
          obtain ⟨h1, _⟩ := h
          subst h1
          obtain ⟨ht, hn⟩ := ih mw (n + 1) fuel paths2 m3 haux
          refine ⟨?_, ?_⟩
          · rw [List.map_cons, List.length_cons, ht]
            rfl
          · intro p hp
            rcases List.mem_cons.1 hp with rfl | hp2
            · exact bandWalk_nonempty fuel m k _ k pts mw hwalk
            · exact hn p hp2

theorem lineCollectAux_tags :
    ∀ (keys : List GridPoint) (m : GMap) (n fuel : ℕ)
      (paths : List (ℕ × List GridPoint)) (m2 : GMap),
      lineCollectAux m fuel keys n = some (paths, m2) →
      List.map Prod.fst paths = List.range' (n + 1) paths.length ∧
      ∀ p ∈ paths, p.2 ≠ [] := by
  intro keys
  induction keys with
  | nil =>
    intro m n fuel paths m2 h
    unfold lineCollectAux at h
    simp only [Option.some_inj, Prod.mk.injEq] at h
    obtain ⟨h1, _⟩ := h
    subst h1
    simp
  | cons k ks ih =>
    intro m n fuel paths m2 h
    unfold lineCollectAux at h
    split at h
    · exact ih m n fuel paths m2 h
    · split at h
      · simp at h
      · rename_i pts mw hpath
        split at h
        · simp at h
        · rename_i paths2 m3 haux
          simp only [Option.some_inj, Prod.mk.injEq] at h
          obtain ⟨h1, _⟩ := h
          subst h1
          obtain ⟨ht, hn⟩ := ih mw (n + 1) fuel paths2 m3 haux
          refine ⟨?_, ?_⟩
          · rw [List.map_cons, List.length_cons, ht]
            rfl
          · intro p hp
            rcases List.mem_cons.1 hp with rfl | hp2
            · exact lineEntryPath_nonempty m k fuel pts mw hpath
            · exact hn p hp2

/-- Claim C8: in every collected result (isobander or isoliner), the path
ids are a dense range starting at 1: the paths carry ids 1, 2, ... in
order with no skips, so the flat id column is a nondecreasing chain with
steps of at most one starting at 1. -/
theorem C8_dense_ids (m : GMap) (fuel : ℕ) :
    (∀ paths, bandCollect m fuel = some paths →
      paths.map Prod.fst = List.range' 1 paths.length ∧
      (flatIds paths).Chain' (fun i j => j = i ∨ j = i + 1) ∧
      (paths = [] ∨ (flatIds paths).head? = some 1)) ∧
    (∀ paths, lineCollect m fuel = some paths →
      paths.map Prod.fst = List.range' 1 paths.length ∧
      (flatIds paths).Chain' (fun i j => j = i ∨ j = i + 1) ∧
      (paths = [] ∨ (flatIds paths).head? = some 1)) := by
  constructor
  · intro paths h
    unfold bandCollect at h
    cases haux : bandCollectAux m fuel m.keys 0 with
    | none => rw [haux] at h; simp at h
    | some res =>
      obtain ⟨paths2, m2⟩ := res
      rw [haux] at h
      simp only [Option.some_inj] at h
      subst h
      obtain ⟨ht, hn⟩ := bandCollectAux_tags m.keys m 0 fuel paths2 m2 haux
      obtain ⟨hc, hh⟩ := idsChain_blocks paths2 0 ht hn
      exact ⟨ht, hc, hh⟩
  · intro paths h
    unfold lineCollect at h
    cases haux : lineCollectAux m fuel m.keys 0 with
    | none => rw [haux] at h; simp at h
    | some res =>
      obtain ⟨paths2, m2⟩ := res
      rw [haux] at h
      simp only [Option.some_inj] at h
      subst h
      obtain ⟨ht, hn⟩ := lineCollectAux_tags m.keys m 0 fuel paths2 m2 haux
      obtain ⟨hc, hh⟩ := idsChain_blocks paths2 0 ht hn
      exact ⟨ht, hc, hh⟩

theorem C8_witness :
    bandCollect (GMap.mk
      [(gp 0 0 .vintersect_lo,
        PointConnect.mk (gp 1 0 .hintersect_lo) (gp 1 0 .hintersect_lo)
          defaultPoint defaultPoint false false false),
       (gp 1 0 .hintersect_lo,
        PointConnect.mk (gp 0 0 .vintersect_lo) (gp 0 0 .vintersect_lo)
          defaultPoint defaultPoint false false false)]) 10 =
      some [(1, [gp 0 0 .vintersect_lo, gp 1 0 .hintersect_lo])] ∧
    (flatIds [(1, [gp 0 0 .vintersect_lo, gp 1 0 .hintersect_lo])]).Chain'
      (fun i j => j = i ∨ j = i + 1) ∧
    ([((1 : ℕ), [gp 0 0 .vintersect_lo, gp 1 0 .hintersect_lo])] = [] ∨
      (flatIds [(1, [gp 0 0 .vintersect_lo, gp 1 0 .hintersect_lo])]).head? = some 1) := by
  have h := (C8_dense_ids (GMap.mk
      [(gp 0 0 .vintersect_lo,
        PointConnect.mk (gp 1 0 .hintersect_lo) (gp 1 0 .hintersect_lo)
          defaultPoint defaultPoint false false false),
       (gp 1 0 .hintersect_lo,
        PointConnect.mk (gp 0 0 .vintersect_lo) (gp 0 0 .vintersect_lo)
          defaultPoint defaultPoint false false false)]) 10).1
    [(1, [gp 0 0 .vintersect_lo, gp 1 0 .hintersect_lo])] (by decide)
  exact ⟨by decide, h.2.1, h.2.2⟩

/-
Claim C1: first/last points of collected paths.
-/
theorem getLast?_mem_list (l : List GridPoint) (a : GridPoint)
    (h : l.getLast? = some a) : a ∈ l := by
  obtain ⟨hne, rfl⟩ := List.mem_getLast?_eq_getLast (Option.mem_def.2 h)
  exact List.getLast_mem hne

theorem head_ne_last_of_tail (pts : List GridPoint) (s : GridPoint)
    (hh : pts.head? = some s) (ht : ∀ q ∈ pts.tail, q ≠ s) (hne : pts.tail ≠ []) :
    pts.head? ≠ pts.getLast? := by
  cases pts with
  | nil => simp at hh
  | cons a t =>
    simp only [List.head?_cons, Option.some_inj] at hh
    subst hh
    simp only [List.tail_cons] at ht hne
    cases hl : t.getLast? with
    | none => exact absurd (List.getLast?_eq_none_iff.1 hl) hne
    | some w =>
      have hw : w ∈ t := getLast?_mem_list t w hl
      have hlast : (a :: t).getLast? = some w := by
        cases t with
        | nil => simp at hl
        | cons b l => rw [List.getLast?_cons_cons, hl]
      rw [List.head?_cons, hlast]
      intro hctr
      injection hctr with hctr
      exact ht w hw hctr.symm

theorem bandWalk_head_tail :
    ∀ (fuel : ℕ) (m : GMap) (cur prev start : GridPoint) (pts : List GridPoint)
      (m2 : GMap),
      bandWalk m cur prev start fuel = some (pts, m2) →
      pts.head? = some cur ∧ ∀ q ∈ pts.tail, q ≠ start := by
  intro fuel
  induction fuel with
  | zero => intro m cur prev start pts m2 h; simp [bandWalk] at h
  | succ fuel ih =>
    intro m cur prev start pts m2 h
    unfold bandWalk at h
    repeat' split at h
    all_goals first
      | (simp at h; done)
      | (simp only [Option.some_inj, Prod.mk.injEq] at h
         obtain ⟨h1, -⟩ := h
         subst h1
         refine ⟨rfl, ?_⟩
         intro q hq
         simp at hq
         done)
      | (rename_i hgin x4 pts2 m3 hrec
         simp only [Option.some_inj, Prod.mk.injEq] at h
         obtain ⟨h1, -⟩ := h
         subst h1
         obtain ⟨ihh, iht⟩ := ih _ _ _ _ _ _ hrec
         refine ⟨rfl, ?_⟩
         intro q hq
         simp only [List.tail_cons] at hq
         cases pts2 with
         | nil => simp at ihh
         | cons a t =>
           simp only [List.head?_cons, Option.some_inj] at ihh
           rcases List.mem_cons.1 hq with rfl | hq2
           · rw [ihh]
             exact hgin
           · exact iht q (by simpa using hq2))

theorem lineWalk_head_tail :
    ∀ (fuel : ℕ) (m : GMap) (cur anchor : GridPoint) (pts : List GridPoint)
      (stop : GridPoint) (m2 : GMap),
      lineWalk m cur anchor fuel = some (pts, stop, m2) →
      pts.head? = some cur ∧ ∀ q ∈ pts.tail, q ≠ anchor := by
  intro fuel
  induction fuel with
  | zero => intro m cur anchor pts stop m2 h; simp [lineWalk] at h
  | succ fuel ih =>
    intro m cur anchor pts stop m2 h
    unfold lineWalk at h
    repeat' split at h
    all_goals first
      | (simp at h; done)
      | (simp only [Option.some_inj, Prod.mk.injEq] at h
         obtain ⟨h1, -⟩ := h
         subst h1
         refine ⟨rfl, ?_⟩
         intro q hq
         simp at hq
         done)
      | (rename_i hgin x4 pts2 stop2 m3 hrec
         simp only [Option.some_inj, Prod.mk.injEq] at h
         obtain ⟨h1, -⟩ := h
         subst h1
         obtain ⟨ihh, iht⟩ := ih _ _ _ _ _ _ hrec
         refine ⟨rfl, ?_⟩
         intro q hq
         simp only [List.tail_cons] at hq
         cases pts2 with
         | nil => simp at ihh
         | cons a t =>
           simp only [List.head?_cons, Option.some_inj] at ihh
           rcases List.mem_cons.1 hq with rfl | hq2
           · rw [ihh]
             intro hctr
             exact hgin (Or.inl hctr)
           · exact iht q (by simpa using hq2))

theorem lineEntryPath_shape (m : GMap) (k : GridPoint) (fuel : ℕ)
    (path : List GridPoint) (m2 : GMap)
    (h : lineEntryPath m k fuel = some (path, m2)) :
    ∃ anchor pts, pts.head? = some anchor ∧ (∀ q ∈ pts.tail, q ≠ anchor) ∧
      (path = pts ++ [anchor] ∨ path = pts) := by
  unfold lineEntryPath at h
  cases hanchor : (if (m.get k).prev = defaultPoint then some k
      else lineBack m (m.get k).prev k fuel) with
  | none => rw [hanchor] at h; simp at h
  | some anchor =>
    rw [hanchor] at h
    dsimp only [] at h
    cases hwalk : lineWalk m anchor anchor fuel with
    | none => rw [hwalk] at h; simp at h
    | some res =>
      obtain ⟨pts2, stop, m3⟩ := res
      rw [hwalk] at h
      dsimp only [] at h
      obtain ⟨hh, ht⟩ := lineWalk_head_tail fuel m anchor anchor pts2 stop m3 hwalk
      split at h <;> simp only [Option.some_inj, Prod.mk.injEq] at h <;>
        obtain ⟨h1, -⟩ := h <;> subst h1
      · exact ⟨anchor, pts2, hh, ht, Or.inl rfl⟩
      · exact ⟨anchor, pts2, hh, ht, Or.inr rfl⟩

/-- Claim C1, amended: the isobander collect walk emits the start vertex
exactly once, at the head of the ring — the closing vertex is not repeated,
so a ring of more than one point has distinct first and last points; an
isoliner open polyline likewise starts at its anchor and never revisits it;
an isoliner closed loop emits the anchor once more at the end, so its first
and last output points are equal. -/
theorem C1_path_closure :
    (∀ (m : GMap) (prev start : GridPoint) (fuel : ℕ) (pts : List GridPoint)
      (m2 : GMap),
      bandWalk m start prev start fuel = some (pts, m2) →
      pts.head? = some start ∧ (∀ q ∈ pts.tail, q ≠ start) ∧
      (pts.tail ≠ [] → pts.head? ≠ pts.getLast?)) ∧
    (∀ (m : GMap) (k : GridPoint) (fuel : ℕ) (path : List GridPoint) (m2 : GMap),
      lineEntryPath m k fuel = some (path, m2) →
      ∃ anchor pts, pts.head? = some anchor ∧ (∀ q ∈ pts.tail, q ≠ anchor) ∧
        ((path = pts ++ [anchor] ∧ path.head? = path.getLast? ∧
          path.getLast? = some anchor) ∨
         (path = pts ∧ (path.tail = [] ∨ path.head? ≠ path.getLast?)))) := by
  constructor
  · intro m prev start fuel pts m2 h
    obtain ⟨hh, ht⟩ := bandWalk_head_tail fuel m start prev start pts m2 h
    exact ⟨hh, ht, fun hne => head_ne_last_of_tail pts start hh ht hne⟩
  · intro m k fuel path m2 h
    obtain ⟨anchor, pts, hh, ht, hcase⟩ := lineEntryPath_shape m k fuel path m2 h
    refine ⟨anchor, pts, hh, ht, ?_⟩
    rcases hcase with rfl | rfl
    · left
      refine ⟨rfl, ?_, List.getLast?_concat pts⟩
      rw [List.getLast?_concat, List.head?_append, hh]
      rfl
    · right
      refine ⟨rfl, ?_⟩
      by_cases hne : path.tail = []
      · exact Or.inl hne
      · exact Or.inr (head_ne_last_of_tail path anchor hh ht hne)

/-- Claim C1, counterexample: on the 2x2 step grid with band (1, 3), the
single collected isoband ring has first output coordinate (0, 1/2) and last
output coordinate (0, 1): the first and last coordinate pairs of an isoband
ring are not equal — the closing vertex is not repeated. -/
theorem C1_counterexample :
    bandRun stepGrid 1 3 100 =
      some [(1, [gp 0 0 .vintersect_lo, gp 0 1 .vintersect_lo,
                 gp 1 1 .grid, gp 1 0 .grid])] ∧
    (flatCoords stepGrid 1 3 [(1, [gp 0 0 .vintersect_lo, gp 0 1 .vintersect_lo,
        gp 1 1 .grid, gp 1 0 .grid])]).head? ≠
    (flatCoords stepGrid 1 3 [(1, [gp 0 0 .vintersect_lo, gp 0 1 .vintersect_lo,
        gp 1 1 .grid, gp 1 0 .grid])]).getLast? := by
  refine ⟨by decide, ?_⟩
  norm_num [flatCoords, calcPointCoords, interpol, Grid.zAt, stepGrid, FVal.toQ, gp]

theorem C1_witness :
    (([gp 0 0 .vintersect_lo, gp 1 0 .hintersect_lo] : List GridPoint).head? ≠
      ([gp 0 0 .vintersect_lo, gp 1 0 .hintersect_lo] : List GridPoint).getLast?) ∧
    (([gp 0 0 .vintersect_lo, gp 1 0 .hintersect_lo, gp 0 0 .vintersect_lo] :
        List GridPoint).head? =
      ([gp 0 0 .vintersect_lo, gp 1 0 .hintersect_lo, gp 0 0 .vintersect_lo] :
        List GridPoint).getLast?) := by
  constructor
  · exact (C1_path_closure.1 (GMap.mk
      [(gp 0 0 .vintersect_lo,
        PointConnect.mk (gp 1 0 .hintersect_lo) (gp 1 0 .hintersect_lo)
          defaultPoint defaultPoint false false false),
       (gp 1 0 .hintersect_lo,
        PointConnect.mk (gp 0 0 .vintersect_lo) (gp 0 0 .vintersect_lo)
          defaultPoint defaultPoint false false false)])
      (gp 1 0 .hintersect_lo) (gp 0 0 .vintersect_lo) 10
      [gp 0 0 .vintersect_lo, gp 1 0 .hintersect_lo]
      (GMap.mk
      [(gp 0 0 .vintersect_lo,
        PointConnect.mk (gp 1 0 .hintersect_lo) (gp 1 0 .hintersect_lo)
          defaultPoint defaultPoint false true false),
       (gp 1 0 .hintersect_lo,
        PointConnect.mk (gp 0 0 .vintersect_lo) (gp 0 0 .vintersect_lo)
          defaultPoint defaultPoint false true false)])
      (by decide)).2.2 (by decide)
  · obtain ⟨anchor, pts, hh, ht, hc⟩ := C1_path_closure.2 (GMap.mk
      [(gp 0 0 .vintersect_lo,
        PointConnect.mk (gp 1 0 .hintersect_lo) (gp 1 0 .hintersect_lo)
          defaultPoint defaultPoint false false false),
       (gp 1 0 .hintersect_lo,
        PointConnect.mk (gp 0 0 .vintersect_lo) (gp 0 0 .vintersect_lo)
          defaultPoint defaultPoint false false false)])
      (gp 0 0 .vintersect_lo) 10
      [gp 0 0 .vintersect_lo, gp 1 0 .hintersect_lo, gp 0 0 .vintersect_lo]
      (GMap.mk
      [(gp 0 0 .vintersect_lo,
        PointConnect.mk (gp 1 0 .hintersect_lo) (gp 1 0 .hintersect_lo)
          defaultPoint defaultPoint false true false),
       (gp 1 0 .hintersect_lo,
        PointConnect.mk (gp 0 0 .vintersect_lo) (gp 0 0 .vintersect_lo)
          defaultPoint defaultPoint false true false)])
      (by decide)
    rcases hc with ⟨-, heq, -⟩ | ⟨-, hor⟩
    · exact heq
    · rcases hor with h1 | h1
      · exact absurd h1 (by decide)
      · exact absurd (by decide) h1

/-
Claim C10: the isoliner emits only low-threshold point kinds and is
independent of the inherited vhi field.
-/
theorem lookupEntry_mem (p : GridPoint) (w : PointConnect) :
    ∀ (l : List (GridPoint × PointConnect)), lookupEntry p l = some w → (p, w) ∈ l := by
  intro l
  induction l with
  | nil => intro h; simp [lookupEntry] at h
  | cons kv rest ih =>
    intro h
    unfold lookupEntry at h
    split at h
    · simp only [Option.some_inj] at h
      subst h
      rename_i hq
      subst hq
      simp
    · exact List.mem_cons_of_mem kv (ih h)

theorem mem_setEntry (p : GridPoint) (v : PointConnect) (kv : GridPoint × PointConnect) :
    ∀ (l : List (GridPoint × PointConnect)), kv ∈ setEntry p v l →
      kv = (p, v) ∨ kv ∈ l := by
  intro l
  induction l with
  | nil => intro h; simp [setEntry] at h; exact Or.inl h
  | cons kw rest ih =>
    intro h
    unfold setEntry at h
    split at h
    · rcases List.mem_cons.1 h with rfl | h2
      · rename_i hq
        exact Or.inl (by rw [hq])
      · exact Or.inr (List.mem_cons_of_mem kw h2)
    · rcases List.mem_cons.1 h with h1 | h2
      · right
        rw [h1]
        simp
      · rcases ih h2 with h3 | h3
        · exact Or.inl h3
        · exact Or.inr (List.mem_cons_of_mem kw h3)

theorem loMap_get {m : GMap} (hm : loMap m) (p : GridPoint) :
    loLink (m.get p).prev ∧ loLink (m.get p).next := by
  unfold GMap.get GMap.find?
  cases hfind : lookupEntry p m.entries with
  | none => exact ⟨Or.inl rfl, Or.inl rfl⟩
  | some w =>
    have hmem := lookupEntry_mem p w m.entries hfind
    exact ⟨(hm _ hmem).2.1, (hm _ hmem).2.2⟩

theorem loMap_set {m : GMap} (hm : loMap m) {p : GridPoint} {v : PointConnect}
    (hk : loKind p) (hp : loLink v.prev) (hn : loLink v.next) : loMap (m.set p v) := by
  intro kv hkv
  rcases mem_setEntry p v kv m.entries hkv with rfl | h2
  · exact ⟨hk, hp, hn⟩
  · exact hm kv h2

theorem loMap_setNext {m : GMap} (hm : loMap m) {p q : GridPoint}
    (hk : loKind p) (hq : loLink q) : loMap (setNext m p q) :=
  loMap_set hm hk (loMap_get hm p).1 hq

theorem loMap_setPrev {m : GMap} (hm : loMap m) {p q : GridPoint}
    (hk : loKind p) (hq : loLink q) : loMap (setPrev m p q) :=
  loMap_set hm hk hq (loMap_get hm p).2

theorem loKind_of_loLink {p : GridPoint} (h : loLink p) (hne : ¬p = defaultPoint) :
    loKind p := by
  rcases h with h | h
  · exact absurd h hne
  · exact h

theorem revFromPrev_loMap :
    ∀ (fuel : ℕ) (m : GMap) (cur : GridPoint) (m' : GMap), loMap m → loKind cur →
      revFromPrev m cur fuel = some m' → loMap m' := by
  intro fuel
  induction fuel with
  | zero => intro m cur m' _ _ h; simp [revFromPrev] at h
  | succ fuel ih =>
    intro m cur m' hm hk h
    unfold revFromPrev at h
    have hm2 : loMap (m.set cur
        { m.get cur with prev := (m.get cur).next, next := (m.get cur).prev }) :=
      loMap_set hm hk (loMap_get hm cur).2 (loMap_get hm cur).1
    split at h
    · simp only [Option.some_inj] at h
      subst h
      exact hm2
    · rename_i hne
      exact ih _ _ _ hm2 (loKind_of_loLink (loMap_get hm cur).1 hne) h

theorem revFromNext_loMap :
    ∀ (fuel : ℕ) (m : GMap) (cur : GridPoint) (m' : GMap), loMap m → loKind cur →
      revFromNext m cur fuel = some m' → loMap m' := by
  intro fuel
  induction fuel with
  | zero => intro m cur m' _ _ h; simp [revFromNext] at h
  | succ fuel ih =>
    intro m cur m' hm hk h
    unfold revFromNext at h
    have hm2 : loMap (m.set cur
        { m.get cur with next := (m.get cur).prev, prev := (m.get cur).next }) :=
      loMap_set hm hk (loMap_get hm cur).2 (loMap_get hm cur).1
    split at h
    · simp only [Option.some_inj] at h
      subst h
      exact hm2
    · rename_i hne
      exact ih _ _ _ hm2 (loKind_of_loLink (loMap_get hm cur).2 hne) h

theorem lineCellEmit_loKind (g : Grid) (v : ℚ) (r c : Int) :
    ∀ seg ∈ lineCellEmit g v r c, loKind seg.1 ∧ loKind seg.2 := by
  intro seg hseg
  unfold lineCellEmit at hseg
  split at hseg
  all_goals simp only [List.mem_cons, List.not_mem_nil, or_false] at hseg
  all_goals first
    | exact hseg.elim
    | (rcases hseg with rfl | rfl <;>
        exact ⟨by simp [loKind, gp], by simp [loKind, gp]⟩)

theorem lineMerge_loMap {m : GMap} {a b : GridPoint} {fuel : ℕ} {m' : GMap}
    (hm : loMap m) (ha : loKind a) (hb : loKind b)
    (h : lineMerge m a b fuel = LineRes.ok m') : loMap m' := by
  unfold lineMerge at h
  split at h
  · simp only [LineRes.ok.injEq] at h
    subst h
    exact loMap_setPrev (loMap_setNext hm ha (Or.inr hb)) hb (Or.inr ha)
  · split at h
    · simp only [LineRes.ok.injEq] at h
      subst h
      exact loMap_setPrev (loMap_setNext hm ha (Or.inr hb)) hb (Or.inr ha)
    · split at h
      · simp only [LineRes.ok.injEq] at h
        subst h
        exact loMap_setNext (loMap_setPrev hm ha (Or.inr hb)) hb (Or.inr ha)
      · simp at h
  · split at h
    · simp only [LineRes.ok.injEq] at h
      subst h
      exact loMap_setPrev (loMap_setNext hm hb (Or.inr ha)) ha (Or.inr hb)
    · split at h
      · simp only [LineRes.ok.injEq] at h
        subst h
        exact loMap_setNext (loMap_setPrev hm hb (Or.inr ha)) ha (Or.inr hb)
      · simp at h
  · unfold lineMergeBoth at h
    split at h
    · simp only [LineRes.ok.injEq] at h
      subst h
      exact loMap_setPrev (loMap_setNext hm ha (Or.inr hb)) hb (Or.inr ha)
    · simp only [LineRes.ok.injEq] at h
      subst h
      exact loMap_setNext (loMap_setPrev hm ha (Or.inr hb)) hb (Or.inr ha)
    · cases hrev : revFromPrev (setNext (setNext m a b) b a) b fuel with
      | none => rw [hrev] at h; simp at h
      | some m3 =>
        rw [hrev] at h
        simp only [LineRes.ok.injEq] at h
        subst h
        exact revFromPrev_loMap fuel _ b _
          (loMap_setNext (loMap_setNext hm ha (Or.inr hb)) hb (Or.inr ha)) hb hrev
    · cases hrev : revFromNext (setPrev (setPrev m a b) b a) a fuel with
      | none => rw [hrev] at h; simp at h
      | some m3 =>
        rw [hrev] at h
        simp only [LineRes.ok.injEq] at h
        subst h
        exact revFromNext_loMap fuel _ a _
          (loMap_setPrev (loMap_setPrev hm ha (Or.inr hb)) hb (Or.inr ha)) ha hrev
    · simp at h
  · simp at h

theorem lineMergeAll_loMap :
    ∀ (segs : List (GridPoint × GridPoint)) (m : GMap) (fuel : ℕ) (m' : GMap),
      loMap m → (∀ seg ∈ segs, loKind seg.1 ∧ loKind seg.2) →
      lineMergeAll m fuel segs = LineRes.ok m' → loMap m' := by
  intro segs
  induction segs with
  | nil =>
    intro m fuel m' hm _ h
    simp only [lineMergeAll, LineRes.ok.injEq] at h
    subst h
    exact hm
  | cons seg rest ih =>
    intro m fuel m' hm hsegs h
    obtain ⟨a, b⟩ := seg
    unfold lineMergeAll at h
    cases hmerge : lineMerge m a b fuel with
    | ok m2 =>
      rw [hmerge] at h
      have hab := hsegs (a, b) (by simp)
      exact ih m2 fuel m' (lineMerge_loMap hm hab.1 hab.2 hmerge)
        (fun s hs => hsegs s (by simp [hs])) h
    | err => rw [hmerge] at h; simp at h
    | nofuel => rw [hmerge] at h; simp at h

theorem lineCalcGo_loMap (g : Grid) (v : ℚ) (fuel : ℕ) :
    ∀ (cells : List (Int × Int)) (m : GMap) (m' : GMap),
      loMap m → lineCalcGo g v fuel m cells = LineRes.ok m' → loMap m' := by
  intro cells
  induction cells with
  | nil =>
    intro m m' hm h
    simp only [lineCalcGo, LineRes.ok.injEq] at h
    subst h
    exact hm
  | cons cell rest ih =>
    intro m m' hm h
    obtain ⟨r, c⟩ := cell
    unfold lineCalcGo at h
    cases hall : lineMergeAll m fuel (lineCellEmit g v r c) with
    | ok m2 =>
      rw [hall] at h
      exact ih m2 m' (lineMergeAll_loMap _ m fuel m2 hm (lineCellEmit_loKind g v r c) hall) h
    | err => rw [hall] at h; simp at h
    | nofuel => rw [hall] at h; simp at h

theorem lineCalculate_loMap (g : Grid) (v : ℚ) (fuel : ℕ) (m : GMap)
    (h : lineCalculate g v fuel = LineRes.ok m) : loMap m := by
  unfold lineCalculate at h
  exact lineCalcGo_loMap g v fuel (cellList g) GMap.empty m (fun kv hkv => by simp [GMap.empty] at hkv) h

theorem lineBack_loKind :
    ∀ (fuel : ℕ) (m : GMap) (cur start0 anchor : GridPoint), loMap m → loKind cur →
      lineBack m cur start0 fuel = some anchor → loKind anchor := by
  intro fuel
  induction fuel with
  | zero => intro m cur start0 anchor _ _ h; simp [lineBack] at h
  | succ fuel ih =>
    intro m cur start0 anchor hm hk h
    unfold lineBack at h
    split at h
    · simp only [Option.some_inj] at h
      subst h
      exact hk
    · rename_i hg
      have hpre : (m.get cur).prev ≠ defaultPoint := fun hh => hg (Or.inr hh)
      exact ih m _ start0 anchor hm (loKind_of_loLink (loMap_get hm cur).1 hpre) h

theorem lineWalk_loKind :
    ∀ (fuel : ℕ) (m : GMap) (cur anchor : GridPoint) (pts : List GridPoint)
      (stop : GridPoint) (m' : GMap), loMap m → loKind cur →
      lineWalk m cur anchor fuel = some (pts, stop, m') →
      (∀ p ∈ pts, loKind p) ∧ loMap m' := by
  intro fuel
  induction fuel with
  | zero => intro m cur anchor pts stop m' _ _ h; simp [lineWalk] at h
  | succ fuel ih =>
    intro m cur anchor pts stop m' hm hk h
    have hm2 : loMap (m.set cur { m.get cur with collected := true }) :=
      loMap_set hm hk (loMap_get hm cur).1 (loMap_get hm cur).2
    unfold lineWalk at h
    split at h
    · simp only [Option.some_inj, Prod.mk.injEq] at h
      obtain ⟨h1, -, h3⟩ := h
      subst h1
      subst h3
      refine ⟨?_, hm2⟩
      intro p hp
      simp only [List.mem_singleton] at hp
      subst hp
      exact hk
    · rename_i hg
      have hnd : (m.get cur).next ≠ defaultPoint := fun hh => hg (Or.inr hh)
      cases hrec : lineWalk (m.set cur { m.get cur with collected := true })
          (m.get cur).next anchor fuel with
      | none => rw [hrec] at h; simp at h
      | some res =>
        obtain ⟨pts2, stop2, m3⟩ := res
        rw [hrec] at h
        simp only [Option.some_inj, Prod.mk.injEq] at h
        obtain ⟨h1, -, h3⟩ := h
        subst h1
        subst h3
        obtain ⟨ihp, ihm⟩ := ih _ _ anchor pts2 stop2 _ hm2
          (loKind_of_loLink (loMap_get hm cur).2 hnd) hrec
        refine ⟨?_, ihm⟩
        intro p hp
        rcases List.mem_cons.1 hp with rfl | hp2
        · exact hk
        · exact ihp p hp2

theorem lineEntryPath_loKind (m : GMap) (k : GridPoint) (fuel : ℕ)
    (path : List GridPoint) (m' : GMap) (hm : loMap m) (hk : loKind k)
    (h : lineEntryPath m k fuel = some (path, m')) :
    (∀ p ∈ path, loKind p) ∧ loMap m' := by
  unfold lineEntryPath at h
  cases hanchor : (if (m.get k).prev = defaultPoint then some k
      else lineBack m (m.get k).prev k fuel) with
  | none => rw [hanchor] at h; simp at h
  | some anchor =>
    have hak : loKind anchor := by
      split at hanchor
      · simp only [Option.some_inj] at hanchor
        subst hanchor
        exact hk
      · rename_i hpre
        exact lineBack_loKind fuel m _ k anchor hm
          (loKind_of_loLink (loMap_get hm k).1 hpre) hanchor
    rw [hanchor] at h
    dsimp only [] at h
    cases hwalk : lineWalk m anchor anchor fuel with
    | none => rw [hwalk] at h; simp at h
    | some res =>
      obtain ⟨pts2, stop, m3⟩ := res
      rw [hwalk] at h
      dsimp only [] at h
      obtain ⟨hpts, hm3⟩ := lineWalk_loKind fuel m anchor anchor pts2 stop m3 hm hak hwalk
      split at h <;> simp only [Option.some_inj, Prod.mk.injEq] at h <;>
        obtain ⟨h1, h2⟩ := h <;> subst h1 <;> subst h2
      · refine ⟨?_, hm3⟩
        intro p hp
        rcases List.mem_append.1 hp with hp2 | hp2
        · exact hpts p hp2
        · simp only [List.mem_singleton] at hp2
          subst hp2
          exact hak
      · exact ⟨hpts, hm3⟩

theorem lineCollectAux_loKind :
    ∀ (keys : List GridPoint) (m : GMap) (n fuel : ℕ)
      (paths : List (ℕ × List GridPoint)) (m' : GMap),
      loMap m → (∀ k ∈ keys, loKind k) →
      lineCollectAux m fuel keys n = some (paths, m') →
      ∀ ip ∈ paths, ∀ p ∈ ip.2, loKind p := by
  intro keys
  induction keys with
  | nil =>
    intro m n fuel paths m' _ _ h
    simp only [lineCollectAux, Option.some_inj, Prod.mk.injEq] at h
    obtain ⟨h1, -⟩ := h
    subst h1
    simp
  | cons k ks ih =>
    intro m n fuel paths m' hm hkeys h
    unfold lineCollectAux at h
    split at h
    · exact ih m n fuel paths m' hm (fun q hq => hkeys q (by simp [hq])) h
    · cases hpath : lineEntryPath m k fuel with
      | none => rw [hpath] at h; simp at h
      | some res =>
        obtain ⟨pts, m2⟩ := res
        rw [hpath] at h
        dsimp only [] at h
        cases haux : lineCollectAux m2 fuel ks (n + 1) with
        | none => rw [haux] at h; simp at h
        | some res2 =>
          obtain ⟨paths2, m3⟩ := res2
          rw [haux] at h
          simp only [Option.some_inj, Prod.mk.injEq] at h
          obtain ⟨h1, -⟩ := h
          subst h1
          obtain ⟨hpts, hm2⟩ := lineEntryPath_loKind m k fuel pts m2 hm
            (hkeys k (by simp)) hpath
          intro ip hip
          rcases List.mem_cons.1 hip with rfl | hip2
          · exact hpts
          · exact ih m2 (n + 1) fuel paths2 m3 hm2
              (fun q hq => hkeys q (by simp [hq])) haux ip hip2

theorem calcPointCoords_vhi_indep (g : Grid) (vlo vhi vhi' : ℚ) (p : GridPoint)
    (h : p.type = PointType.grid ∨ p.type = PointType.hintersect_lo ∨
      p.type = PointType.vintersect_lo) :
    calcPointCoords g vlo vhi p = calcPointCoords g vlo vhi' p := by
  unfold calcPointCoords
  rcases h with h | h | h <;> rw [h]

theorem flatCoords_vhi_indep (g : Grid) (vlo vhi vhi' : ℚ) :
    ∀ (paths : List (ℕ × List GridPoint)),
      (∀ ip ∈ paths, ∀ p ∈ ip.2,
        p.type = PointType.grid ∨ p.type = PointType.hintersect_lo ∨
        p.type = PointType.vintersect_lo) →
      flatCoords g vlo vhi paths = flatCoords g vlo vhi' paths := by
  intro paths
  induction paths with
  | nil => intro _; rfl
  | cons ip tl ih =>
    intro hkinds
    unfold flatCoords at ih ⊢
    rw [List.flatMap_cons, List.flatMap_cons,
      ih (fun q hq => hkinds q (by simp [hq])),
      List.map_congr_left
        (fun p hp => calcPointCoords_vhi_indep g vlo vhi vhi' p
          (hkinds ip (by simp) p hp))]

/-- Claim C10: every point emitted by the isoliner pipeline has kind grid,
hintersect_lo, or vintersect_lo; the high-threshold kinds hintersect_hi and
vintersect_hi never appear, and since the whole isoliner pipeline up to
coordinate computation never reads vhi (isoliner::set_value assigns only
vlo), the output coordinates are identical for any two values of the
inherited vhi field. -/
theorem C10_line_output_kinds (g : Grid) (v : ℚ) (fuel : ℕ)
    (paths : List (ℕ × List GridPoint)) (h : lineRun g v fuel = some paths) :
    (∀ ip ∈ paths, ∀ p ∈ ip.2,
      p.type = PointType.grid ∨ p.type = PointType.hintersect_lo ∨
      p.type = PointType.vintersect_lo) ∧
    (∀ ip ∈ paths, ∀ p ∈ ip.2,
      p.type ≠ PointType.hintersect_hi ∧ p.type ≠ PointType.vintersect_hi) ∧
    (∀ vhi vhi', flatCoords g v vhi paths = flatCoords g v vhi' paths) := by
  unfold lineRun at h
  cases hcalc : lineCalculate g v fuel with
  | err => rw [hcalc] at h; simp at h
  | nofuel => rw [hcalc] at h; simp at h
  | ok m =>
    rw [hcalc] at h
    dsimp only [] at h
    have hm : loMap m := lineCalculate_loMap g v fuel m hcalc
    unfold lineCollect at h
    cases haux : lineCollectAux m fuel m.keys 0 with
    | none => rw [haux] at h; simp at h
    | some res =>
      obtain ⟨paths2, m2⟩ := res
      rw [haux] at h
      simp only [Option.some_inj] at h
      subst h
      have hkeys : ∀ k ∈ m.keys, loKind k := by
        intro k hk
        unfold GMap.keys at hk
        obtain ⟨kv, hkv, rfl⟩ := List.mem_map.1 hk
        exact (hm kv hkv).1
      have hlo := lineCollectAux_loKind m.keys m 0 fuel paths2 m2 hm hkeys haux
      have hkinds : ∀ ip ∈ paths2, ∀ p ∈ ip.2,
          p.type = PointType.grid ∨ p.type = PointType.hintersect_lo ∨
          p.type = PointType.vintersect_lo := by
        intro ip hip p hp
        rcases hlo ip hip p hp with h2 | h2
        · exact Or.inr (Or.inl h2)
        · exact Or.inr (Or.inr h2)
      refine ⟨hkinds, ?_, ?_⟩
      · intro ip hip p hp
        rcases hlo ip hip p hp with h2 | h2 <;> rw [h2] <;> exact ⟨by simp, by simp⟩
      · intro vhi vhi'
        exact flatCoords_vhi_indep g v vhi vhi' paths2 hkinds

theorem C10_witness :
    lineRun stepGrid 1 100 =
      some [(1, [gp 0 0 .vintersect_lo, gp 0 1 .vintersect_lo])] ∧
    ((gp 0 0 .vintersect_lo).type = PointType.grid ∨
     (gp 0 0 .vintersect_lo).type = PointType.hintersect_lo ∨
     (gp 0 0 .vintersect_lo).type = PointType.vintersect_lo) ∧
    flatCoords stepGrid 1 0 [(1, [gp 0 0 .vintersect_lo, gp 0 1 .vintersect_lo])] =
      flatCoords stepGrid 1 7 [(1, [gp 0 0 .vintersect_lo, gp 0 1 .vintersect_lo])] := by
  have h := C10_line_output_kinds stepGrid 1 100
    [(1, [gp 0 0 .vintersect_lo, gp 0 1 .vintersect_lo])] (by decide)
  exact ⟨by decide,
    h.1 (1, [gp 0 0 .vintersect_lo, gp 0 1 .vintersect_lo]) (by decide)
      (gp 0 0 .vintersect_lo) (by decide),
    h.2.2 0 7⟩
